import Mathlib

/-!
# go-massping: the probe queue of `massping.go`

A shallow embedding of `massping.go` (package `massping`) and the properties of
its reply validation, probe registry, receive path, result aggregator and join
barrier.

Conventions of the embedding.

* A Go `[]byte` is a `List Byte` with `Byte = Fin 256`; a Go `string` is a Lean
  `String` read through its character list.
* A Go `error` is `Option GoError` (`none` is `nil`); a function that returns
  `(value, error)` is an `Except GoError value`.
* A run-time panic is an `Except GoPanic _`.
* What the operating system, the network and the scheduler decide (the result
  of a socket call, the datagram that a read returns, the draw of the random
  source, the order in which goroutines run) is an explicit argument.
-/

namespace Massping

/-! ## Bytes, errors, panics -/

abbrev Byte := Fin 256

/-- Go error values. `external` is an error handed back by the operating
system or a library, `wrap` is `fmt.Errorf("<context>: %w", cause)`, `fresh` is
an `fmt.Errorf` without a wrapped cause. -/
inductive GoError where
  | external (what : String)
  | wrap (context : String) (cause : GoError)
  | fresh (text : String)
  deriving DecidableEq

/-- A run-time panic with its message. -/
structure GoPanic where
  msg : String
  deriving DecidableEq

/-- The function `binary.BigEndian.Uint16` on the two bytes `hi lo`. -/
def bigEndianUint16 (hi lo : Byte) : Nat := hi.val * 256 + lo.val

/-! ## `golang.org/x/net/icmp`: parsing a message -/

/-- The interface `icmp.Type` with its two implementations `ipv4.ICMPType` and
`ipv6.ICMPType`; two values are equal when both the dynamic type and the number
agree. -/
inductive ICMPType where
  | ipv4 (n : Nat)
  | ipv6 (n : Nat)
  deriving DecidableEq

/-- The constant `ipv4.ICMPTypeEchoReply`. -/
def ICMPTypeEchoReply : ICMPType := .ipv4 0

/-- The constant `ipv4.ICMPTypeEcho`. -/
def ICMPTypeEcho : ICMPType := .ipv4 8

/-- The struct `icmp.Echo`. -/
structure Echo where
  ID : Int
  Seq : Int
  Data : List Byte
  deriving DecidableEq

/-- The interface `icmp.MessageBody`: an `*icmp.Echo`, or the body of one of
the other message kinds (whose content the queue never looks at). -/
inductive MessageBody where
  | echo (e : Echo)
  | nonEcho
  deriving DecidableEq

/-- The struct `icmp.Message`; its field `Type` is written `Typ`. -/
structure Message where
  Typ : ICMPType
  Code : Nat
  Checksum : Nat
  Body : MessageBody
  deriving DecidableEq

/-- The body parsers that `golang.org/x/net/icmp` keeps for the message types
other than echo and echo reply (destination unreachable, time exceeded,
parameter problem, extended echo, raw body): given the type and the bytes after
the four-byte header they fail with an error or succeed. They belong to the
library and are taken as a parameter. -/
abbrev NonEchoParser := ICMPType → List Byte → Option GoError

/-- The library error `errMessageTooShort`. -/
def errMessageTooShort : GoError := .external "message too short"

/-- The library error `errInvalidProtocol`. -/
def errInvalidProtocol : GoError := .external "invalid protocol"

/-- The constant `iana.ProtocolICMP`. -/
def ProtocolICMP : Nat := 1

/-- The constant `iana.ProtocolIPv6ICMP`. -/
def ProtocolIPv6ICMP : Nat := 58

/-- The function `icmp.parseEcho`: identifier and sequence are the two
big-endian 16-bit words at the start of the body, the rest is the data. -/
def parseEcho (b : List Byte) : Except GoError MessageBody :=
  match b with
  | i1 :: i0 :: s1 :: s0 :: data =>
    .ok (.echo { ID := (bigEndianUint16 i1 i0 : Nat), Seq := (bigEndianUint16 s1 s0 : Nat),
                 Data := data })
  | _ => .error errMessageTooShort

/-- Membership of a type in the table `parseFns` with the entry `parseEcho`. -/
def isEchoKind (t : ICMPType) : Bool :=
  t == .ipv4 8 || t == .ipv4 0 || t == .ipv6 128 || t == .ipv6 129

/-- The function `icmp.ParseMessage(proto, b)`. The checksum is stored, not
verified. -/
def ParseMessage (nonEcho : NonEchoParser) (proto : Nat) (b : List Byte) :
    Except GoError Message :=
  match b with
  | t :: c :: k1 :: k0 :: rest =>
    let typ? : Option ICMPType :=
      if proto = ProtocolICMP then some (.ipv4 t.val)
      else if proto = ProtocolIPv6ICMP then some (.ipv6 t.val)
      else none
    match typ? with
    | none => .error errInvalidProtocol
    | some typ =>
      let body : Except GoError MessageBody :=
        if isEchoKind typ then parseEcho rest
        else match nonEcho typ rest with
          | some e => .error e
          | none => .ok .nonEcho
      match body with
      | .error e => .error e
      | .ok mb => .ok { Typ := typ, Code := c.val, Checksum := bigEndianUint16 k1 k0, Body := mb }
  | _ => .error errMessageTooShort

/-! ## `net`: addresses

The functions below follow `ip.go` and `parse.go` of the Go standard library's
package `net`. A string is read through its list of characters; every character
the parsers accept is ASCII, so positions in the character list and in Go's
byte string agree on everything that is consumed. -/

/-- The type `net.IP`, a byte slice; the nil slice is the empty list. -/
abbrev IP := List Byte

/-- The struct `net.IPAddr`. -/
structure IPAddr where
  IP : IP
  Zone : String
  deriving DecidableEq

/-- The Go conversion `byte(n)`. -/
def toByte (n : Nat) : Byte := ⟨n % 256, Nat.mod_lt _ (by decide)⟩

/-- The constant `big` of `parse.go`. -/
def big : Nat := 0xFFFFFF

/-- The loop of `dtoi`: `n` is the number read so far and `i` the position; the
last component is false when the number grew past `big`. -/
def dtoiLoop : List Char → Nat → Nat → Nat × Nat × Bool
  | [], n, i => (n, i, true)
  | c :: cs, n, i =>
    if 48 ≤ c.toNat ∧ c.toNat ≤ 57 then
      let n1 := n * 10 + (c.toNat - 48)
      if n1 ≥ big then (big, i, false) else dtoiLoop cs n1 (i + 1)
    else (n, i, true)

/-- The function `dtoi`: decimal to integer; returns number, characters
consumed, success. -/
def dtoi (s : List Char) : Nat × Nat × Bool :=
  match dtoiLoop s 0 0 with
  | (n, i, false) => (n, i, false)
  | (n, i, true) => if i = 0 then (0, 0, false) else (n, i, true)

/-- The value of a hexadecimal digit, if the character is one. -/
def hexVal (c : Char) : Option Nat :=
  if 48 ≤ c.toNat ∧ c.toNat ≤ 57 then some (c.toNat - 48)
  else if 97 ≤ c.toNat ∧ c.toNat ≤ 102 then some (c.toNat - 97 + 10)
  else if 65 ≤ c.toNat ∧ c.toNat ≤ 70 then some (c.toNat - 65 + 10)
  else none

/-- The loop of `xtoi`. -/
def xtoiLoop : List Char → Nat → Nat → Nat × Nat × Bool
  | [], n, i => (n, i, true)
  | c :: cs, n, i =>
    match hexVal c with
    | none => (n, i, true)
    | some d =>
      let n1 := n * 16 + d
      if n1 ≥ big then (0, i, false) else xtoiLoop cs n1 (i + 1)

/-- The function `xtoi`: hexadecimal to integer; returns number, characters
consumed, success. -/
def xtoi (s : List Char) : Nat × Nat × Bool :=
  match xtoiLoop s 0 0 with
  | (n, i, false) => (n, i, false)
  | (n, i, true) => if i = 0 then (0, i, false) else (n, i, true)

/-- The prefix `v4InV6Prefix`. -/
def v4InV6Prefix : List Byte := [0, 0, 0, 0, 0, 0, 0, 0, 0, 0, 0xff, 0xff]

/-- The function `net.IPv4(a, b, c, d)`: the 16-byte form of an IPv4 address. -/
def IPv4 (a b c d : Byte) : IP := v4InV6Prefix ++ [a, b, c, d]

/-- The loop of `parseIPv4` over the fields still to read (`k`), with `i` the
index of the field and `acc` the fields read; `none` is the nil result. -/
def parseIPv4Loop : Nat → Nat → List Char → List Byte → Option (List Byte × List Char)
  | 0, _, s, acc => some (acc, s)
  | k + 1, i, s, acc =>
    if s.isEmpty then none
    else
      let afterDot : Option (List Char) :=
        if i > 0 then
          match s with
          | c :: t => if c = '.' then some t else none
          | [] => none
        else some s
      match afterDot with
      | none => none
      | some s1 =>
        match dtoi s1 with
        | (n, c, ok) =>
          if !ok || n > 0xFF then none
          else if c > 1 && s1.head? == some '0' then none
          else parseIPv4Loop k (i + 1) (s1.drop c) (acc ++ [toByte n])

/-- The function `parseIPv4`: dotted decimal, four fields of at most 255, no
leading zero in a field of more than one digit. -/
def parseIPv4 (s : List Char) : Option IP :=
  match parseIPv4Loop 4 0 s [] with
  | some ([a, b, c, d], []) => some (IPv4 a b c d)
  | _ => none

/-- The state of the loop of `parseIPv6`: the bytes written so far (`acc`, so
the loop index `i` is `acc.length`), the rest of the string and the position of
the ellipsis (`none` for `-1`). -/
structure V6State where
  acc : List Byte
  s : List Char
  ellipsis : Option Nat

/-- The loop `for i < IPv6len` of `parseIPv6`; the outer `none` is the nil
result, the state is the one on leaving the loop. Each round writes at least two
bytes, so eight rounds reach `IPv6len`. -/
def parseIPv6Loop : Nat → V6State → Option V6State
  | 0, st => some st
  | fuel + 1, st =>
    if st.acc.length < 16 then
      match xtoi st.s with
      | (n, c, ok) =>
        if !ok || n > 0xFFFF then none
        else if c < st.s.length && st.s.get? c == some '.' then
          if st.ellipsis.isNone && st.acc.length != 16 - 4 then none
          else if st.acc.length + 4 > 16 then none
          else
            match parseIPv4 st.s with
            | none => none
            | some ip4 => some { st with acc := st.acc ++ ip4.drop 12, s := [] }
        else
          let acc1 := st.acc ++ [toByte (n >>> 8), toByte n]
          let s1 := st.s.drop c
          if s1.isEmpty then some { st with acc := acc1, s := s1 }
          else
            match s1 with
            | [] => none
            | c0 :: s2 =>
              if c0 ≠ ':' || s1.length == 1 then none
              else
                match s2 with
                | [] => none
                | c1 :: s3 =>
                  if c1 = ':' then
                    if st.ellipsis.isSome then none
                    else if s3.isEmpty then
                      some { acc := acc1, s := s3, ellipsis := some acc1.length }
                    else parseIPv6Loop fuel { acc := acc1, s := s3, ellipsis := some acc1.length }
                  else parseIPv6Loop fuel { st with acc := acc1, s := s2 }
    else some st

/-- The function `parseIPv6`. The array `ip` of the source is filled from the
front, so it is built as a list; expanding the ellipsis moves the bytes written
after it to the end and puts zeros in between. -/
def parseIPv6 (s : List Char) : Option IP :=
  let start : Option V6State :=
    match s with
    | ':' :: ':' :: t =>
      if t.isEmpty then none else some { acc := [], s := t, ellipsis := some 0 }
    | _ => some { acc := [], s := s, ellipsis := none }
  match start with
  | none => some (List.replicate 16 0)
  | some st0 =>
    match parseIPv6Loop 8 st0 with
    | none => none
    | some st =>
      if st.s.length != 0 then none
      else if st.acc.length < 16 then
        match st.ellipsis with
        | none => none
        | some e =>
          some (st.acc.take e ++ List.replicate (16 - st.acc.length) 0 ++ st.acc.drop e)
      else if st.ellipsis.isSome then none
      else some st.acc

/-- The scan of `net.ParseIP` for the first `.` or `:`. -/
def parseIPScan (whole : List Char) : List Char → Option IP
  | [] => none
  | c :: cs =>
    if c = '.' then parseIPv4 whole
    else if c = ':' then parseIPv6 whole
    else parseIPScan whole cs

/-- The function `net.ParseIP`; the nil result is `[]`. -/
def ParseIP (s : String) : IP := (parseIPScan s.toList s.toList).getD []

/-- The method `IP.To4`; the nil result is `[]`. -/
def IP.To4 (ip : IP) : IP :=
  if ip.length = 4 then ip
  else if ip.length = 16 ∧ (ip.take 10).all (· == 0) ∧ ip.get? 10 = some 0xff
      ∧ ip.get? 11 = some 0xff then ip.drop 12
  else []

/-- A decimal digit as a character. -/
def digitChar (d : Nat) : Char := Char.ofNat (48 + d)

/-- The function `ubtoa`: a byte in decimal, without padding. -/
def ubtoa (v : Byte) : List Char :=
  if v.val < 10 then [digitChar v.val]
  else if v.val < 100 then [digitChar (v.val / 10), digitChar (v.val % 10)]
  else [digitChar (v.val / 100), digitChar (v.val / 10 % 10), digitChar (v.val % 10)]

/-- The table `hexDigit`. -/
def hexDigit (d : Nat) : Char := "0123456789abcdef".toList.getD d '0'

/-- The function `hexString`. -/
def hexString (b : List Byte) : List Char :=
  b.flatMap fun tn => [hexDigit (tn.val >>> 4), hexDigit (tn.val &&& 0xf)]

/-- The function `appendHex` on a 16-bit group: hexadecimal without leading
zeros. -/
def appendHex (dst : List Char) (i : Nat) : List Char :=
  if i = 0 then dst ++ ['0']
  else
    dst ++ ([7, 6, 5, 4, 3, 2, 1, 0].flatMap fun j =>
      let v := i >>> (j * 4)
      if v > 0 then [hexDigit (v &&& 0xf)] else [])

/-- The group of two bytes of `p` at index `i`. -/
def group16 (p : IP) (i : Nat) : Nat := (p.getD i 0).val * 256 + (p.getD (i + 1) 0).val

/-- The inner loop of the zero-run search: from `j`, the first index whose
group is not zero (or `IPv6len`). -/
def zeroRunEnd (p : IP) : Nat → Nat → Nat
  | 0, j => j
  | fuel + 1, j =>
    if j < 16 ∧ p.getD j 0 = 0 ∧ p.getD (j + 1) 0 = 0 then zeroRunEnd p fuel (j + 2) else j

/-- The outer loop of the zero-run search of `IP.String`: `e0`, `e1` bound the
longest run found so far (`e1 - e0 = 0` at the start). -/
def longestZeroRun (p : IP) : Nat → Nat → Int → Int → Int × Int
  | 0, _, e0, e1 => (e0, e1)
  | fuel + 1, i, e0, e1 =>
    if i < 16 then
      let j := zeroRunEnd p 8 i
      if j > i ∧ ((j : Int) - i > e1 - e0) then longestZeroRun p fuel (j + 2) i j
      else longestZeroRun p fuel (i + 2) e0 e1
    else (e0, e1)

/-- The printing loop of `IP.String` for a 16-byte address. -/
def printGroups (p : IP) (e0 e1 : Int) : Nat → Nat → List Char → List Char
  | 0, _, b => b
  | fuel + 1, i, b =>
    if i < 16 then
      if (i : Int) = e0 then
        let b1 := b ++ [':', ':']
        let i1 := e1.toNat
        if i1 ≥ 16 then b1
        else printGroups p e0 e1 fuel (i1 + 2) (appendHex b1 (group16 p i1))
      else
        let b1 := if i > 0 then b ++ [':'] else b
        printGroups p e0 e1 fuel (i + 2) (appendHex b1 (group16 p i))
    else b

/-- The method `IP.String`. -/
def IP.String (ip : IP) : String :=
  if ip.length = 0 then "<nil>"
  else
    match ip.To4 with
    | [a, b, c, d] =>
      String.mk (ubtoa a ++ ['.'] ++ ubtoa b ++ ['.'] ++ ubtoa c ++ ['.'] ++ ubtoa d)
    | _ =>
      if ip.length ≠ 16 then String.mk ('?' :: hexString ip)
      else
        let (e0, e1) := longestZeroRun ip 8 0 (-1) (-1)
        let (e0, e1) := if e1 - e0 ≤ 2 then ((-1 : Int), (-1 : Int)) else (e0, e1)
        String.mk (printGroups ip e0 e1 8 0 [])

/-- The function `ipEmptyString`. -/
def ipEmptyString (ip : IP) : String := if ip.length = 0 then "" else ip.String

/-- The method `(*IPAddr).String` on a non-nil pointer. -/
def IPAddr.String (a : IPAddr) : String :=
  let ip := ipEmptyString a.IP
  if a.Zone ≠ "" then ip ++ "%" ++ a.Zone else ip

/-! ## `massping.go`: probes, registry, send, receive, validation -/

/-- The struct `ping`; `dst` is a pointer, nil in the zero value. -/
structure ping where
  id : Int
  seq : Int
  dst : Option IPAddr
  deriving DecidableEq

/-- The zero value of `ping`, which a Go map yields for a key it does not
hold. -/
def zeroPing : ping := { id := 0, seq := 0, dst := none }

/-- The constant `math.MaxInt16`. -/
def MaxInt16 : Nat := 32767

/-- The function `rand.Intn(n)` for `0 < n ≤ 2^31 - 1`, as computed by
`Int31n` from the 31-bit draw `v` of the source that its rejection loop keeps:
a mask when `n` is a power of two, the remainder otherwise. -/
def Intn (n : Nat) (v : Nat) : Int :=
  if n &&& (n - 1) = 0 then ((v &&& (n - 1) : Nat) : Int) else ((v % n : Nat) : Int)

/-- The function `parseIP`. -/
def parseIP (ip : String) : IPAddr := { IP := ParseIP ip, Zone := "" }

/-- The probe built at the start of the goroutine of `Ping`, from the two
draws of the random source. -/
def newPing (ip : String) (v1 v2 : Nat) : ping :=
  { id := Intn MaxInt16 v1, seq := Intn MaxInt16 v2, dst := some (parseIP ip) }

/-- The map `map[string]ping` behind `pq.pings`, as an association list with at
most one entry per key. -/
abbrev Registry := List (String × ping)

/-- The assignment `(*pq.pings)[k] = p`. -/
def Registry.put (m : Registry) (k : String) (p : ping) : Registry :=
  (k, p) :: m.filter fun e => e.1 ≠ k

/-- The index expression `(*pq.pings)[k]`: the zero value when `k` is absent. -/
def Registry.get (m : Registry) (k : String) : ping := (m.lookup k).getD zeroPing

/-- The method `getPing`. -/
def getPing (pings : Registry) (ip : IPAddr) : ping := pings.get ip.String

/-- The printed form of the `*net.IPAddr` of a probe under `%s`. -/
def dstText (p : ping) : String :=
  match p.dst with
  | some a => a.String
  | none => "<nil>"

/-- The method `sendPing`. `marshalErr` is the error of `Marshal` and
`writeErr` the error of `pq.src.WriteTo` (`none` for nil). -/
def sendPing (p : ping) (marshalErr writeErr : Option GoError) : Option GoError :=
  match marshalErr with
  | some err => some (.wrap ("couldn't marshal echo message for " ++ dstText p) err)
  | none =>
    match writeErr with
    | some err => some (.wrap ("error whilst sending echo message to " ++ dstText p) err)
    | none => none

/-- The function `setTimeout`; `deadlineErr` is the error of
`conn.SetReadDeadline`. -/
def setTimeout (deadlineErr : Option GoError) : Option GoError :=
  match deadlineErr with
  | some err => some (.wrap "couldn't set response deadline" err)
  | none => none

/-- What `src.ReadFrom(bytes)` does: a datagram with its source address, an
error that is a `net.OpError` with `Timeout()` true, or another error. -/
inductive ReadResult where
  | datagram (payload : List Byte) (src : IPAddr)
  | timeout (e : GoError)
  | failure (e : GoError)
  deriving DecidableEq

/-- The effect of `ReadFrom` on the buffer: the payload of the datagram (the
ICMP message, without the IP header) is at the front, as far as it fits, and the
rest of the buffer stays as it was. Where the socket hands over the IP header
too, `IPConn.ReadFrom` removes it by moving the buffer content to the front; the
buffer is then as described here up to its last 60 bytes (the longest IP
header), which no property below depends on. -/
def copyInto (buf payload : List Byte) : List Byte :=
  payload.take buf.length ++ buf.drop payload.length

/-- The datagrams that `src.ReadFrom` can return on the socket that `listen`
opens: a raw `ip4:icmp` socket is handed a datagram by the kernel only when the
ICMP header of eight bytes is complete. -/
def Receivable (payload : List Byte) : Prop := 8 ≤ payload.length

instance (payload : List Byte) : Decidable (Receivable payload) :=
  Nat.decLe 8 payload.length

/-- The function `readFrom`: the buffer is `make([]byte, 512)`, the count that
`ReadFrom` returns is dropped, and the whole buffer is returned. -/
def readFrom (r : ReadResult) : Except GoError (List Byte × IPAddr) :=
  let bytes : List Byte := List.replicate 512 0
  match r with
  | .timeout e => .error (.wrap "couldn't set response deadline" e)
  | .failure e => .error (.wrap "couldn't receive response" e)
  | .datagram payload ip => .ok (copyInto bytes payload, ip)

/-- The function `validateMessage`. The type assertion
`msg.Body.(*icmp.Echo)` panics on a body of another kind. The text that `%v`
prints after `invalid response:` is left out of the error value. -/
def validateMessage (nonEcho : NonEchoParser) (msgBytes : List Byte) (p : ping) :
    Except GoPanic (Option GoError) :=
  let icmpV4Protocol := 1
  match ParseMessage nonEcho icmpV4Protocol msgBytes with
  | .error err => .ok (some (.wrap "couldn't parse response" err))
  | .ok msg =>
    if msg.Typ ≠ ICMPTypeEchoReply then .ok (some (.fresh "invalid response"))
    else
      match msg.Body with
      | .nonEcho => .error ⟨"interface conversion: icmp.MessageBody is not *icmp.Echo"⟩
      | .echo msgBody =>
        if msgBody.ID ≠ p.id ∨ msgBody.Seq ≠ p.seq then .ok (some (.fresh "invalid response"))
        else .ok none

/-- A value sent on the channel `pq.results` (a `chan interface{}`): a string or
an error. -/
inductive Outcome where
  | str (r : String)
  | err (e : GoError)
  deriving DecidableEq

/-- The method `receivePing`, run against the registry `pings` as it is when
`getPing` takes the lock. The result is the sequence of values the call sends
on `pq.results`. -/
def receivePing (nonEcho : NonEchoParser) (pings : Registry) (deadlineErr : Option GoError)
    (rd : ReadResult) : Except GoPanic (List Outcome) :=
  match setTimeout deadlineErr with
  | some err => .ok [.err err]
  | none =>
    match readFrom rd with
    | .error err => .ok [.err err]
    | .ok (msgBytes, ip) =>
      let p := getPing pings ip
      match validateMessage nonEcho msgBytes p with
      | .error pan => .error pan
      | .ok (some err) => .ok [.err (.wrap ip.String err)]
      | .ok none => .ok [.str ip.String]

/-- What the goroutine started by `Ping` leaves behind: the registry, the
values it sent on `pq.results`, and the number of `receivePing` goroutines it
started. -/
structure PingEffect where
  pings : Registry
  sent : List Outcome
  receives : Nat

/-- The goroutine of `Ping(ip)`: build the probe, register it under `ip`, send
it. -/
def pingGoroutine (pings : Registry) (ip : String) (v1 v2 : Nat)
    (marshalErr writeErr : Option GoError) : PingEffect :=
  let p := newPing ip v1 v2
  let pings1 := pings.put ip p
  match sendPing p marshalErr writeErr with
  | some err => { pings := pings1, sent := [.err err], receives := 0 }
  | none => { pings := pings1, sent := [], receives := 1 }

/-! ## The aggregator and the wait group -/

/-- The call `wg.Done()`: the counter goes down by one, with a panic when it
would become negative. -/
def wgDone (wg : Int) : Except GoPanic Int :=
  if wg - 1 < 0 then .error ⟨"sync: negative WaitGroup counter"⟩ else .ok (wg - 1)

/-- The first statement of the loop body of `handleResults`: a string is
appended to `pq.hosts`, anything else is dropped. -/
def appendHost (hosts : List String) (res : Outcome) : List String :=
  match res with
  | .str r => hosts ++ [r]
  | .err _ => hosts

/-- The loop of `handleResults` over the values that arrive on `pq.results`
before the channel is closed, on the host list and the wait-group counter. -/
def handleResults : List Outcome → List String × Int → Except GoPanic (List String × Int)
  | [], st => .ok st
  | res :: rest, (hosts, wg) =>
    let hosts1 := appendHost hosts res
    match wgDone wg with
    | .error pan => .error pan
    | .ok wg1 => handleResults rest (hosts1, wg1)

/-! ## The session as a transition system

One `queue` value and the goroutines around it. The goroutine of a `Ping` is
one step (its only shared effects are the registry assignment and the send on
`pq.results`), a `receivePing` goroutine is one step taken when `getPing` reads
the registry, and the aggregator takes two steps per value: receive and append,
then `wg.Done()`. The channel `pq.results` is unbuffered, so `results` holds the
values of the goroutines blocked in their send, and the aggregator may be handed
any of them. The fields after `aggBusy` are history: they record what happened
and no step reads them. -/

/-- The state of a session. -/
structure Session where
  /-- The map `*pq.pings`. -/
  pings : Registry
  /-- The values of the goroutines blocked in a send on `pq.results`. -/
  results : List Outcome
  /-- The slice `pq.hosts`. -/
  hosts : List String
  /-- The counter of `pq.wg`. -/
  wg : Int
  /-- The arguments of the calls of `Ping` whose goroutine has not run yet. -/
  starting : List String
  /-- The number of `receivePing` goroutines started and not yet finished. -/
  receivers : Nat
  /-- Whether the aggregator is between its append and its `wg.Done()`. -/
  aggBusy : Bool
  /-- History: the number of calls of `Ping`. -/
  submitted : Nat
  /-- History: all values sent on `pq.results`, in the order of the sends. -/
  sent : List Outcome
  /-- History: the values the aggregator received, in the order of arrival. -/
  arrived : List Outcome
  /-- History: the number of calls of `wg.Done()`. -/
  released : Nat

/-- The session that `New` returns, with the aggregator started. -/
def New : Session :=
  { pings := [], results := [], hosts := [], wg := 0, starting := [], receivers := 0,
    aggBusy := false, submitted := 0, sent := [], arrived := [], released := 0 }

/-- The steps of a session. `ping ip` is the call `Ping(ip)` up to its return;
`dispatch k` runs the goroutine of the `k`-th call that has not run yet;
`receive` runs one started `receivePing`; `aggRecv k` hands the aggregator the
`k`-th blocked value, `aggDone` is its `wg.Done()`. -/
inductive Action where
  | ping (ip : String)
  | dispatch (k : Nat) (v1 v2 : Nat) (marshalErr writeErr : Option GoError)
  | receive (deadlineErr : Option GoError) (rd : ReadResult)
  | aggRecv (k : Nat)
  | aggDone

/-- Why a step yields no next state: the step is not possible in the state, or
the program panics. -/
inductive StepFault where
  | notEnabled
  | panicked (p : GoPanic)
  deriving DecidableEq

/-- One step of the session. -/
def step (nonEcho : NonEchoParser) (s : Session) : Action → Except StepFault Session
  | .ping ip =>
    .ok { s with wg := s.wg + 1, starting := s.starting ++ [ip], submitted := s.submitted + 1 }
  | .dispatch k v1 v2 marshalErr writeErr =>
    match s.starting[k]? with
    | none => .error .notEnabled
    | some ip =>
      let eff := pingGoroutine s.pings ip v1 v2 marshalErr writeErr
      .ok { s with pings := eff.pings, starting := s.starting.eraseIdx k,
                   receivers := s.receivers + eff.receives,
                   results := s.results ++ eff.sent, sent := s.sent ++ eff.sent }
  | .receive deadlineErr rd =>
    if s.receivers = 0 then .error .notEnabled
    else
      match receivePing nonEcho s.pings deadlineErr rd with
      | .error pan => .error (.panicked pan)
      | .ok out =>
        .ok { s with receivers := s.receivers - 1, results := s.results ++ out,
                     sent := s.sent ++ out }
  | .aggRecv k =>
    if s.aggBusy then .error .notEnabled
    else
      match s.results[k]? with
      | none => .error .notEnabled
      | some res =>
        .ok { s with results := s.results.eraseIdx k, hosts := appendHost s.hosts res,
                     aggBusy := true, arrived := s.arrived ++ [res] }
  | .aggDone =>
    if s.aggBusy then
      match wgDone s.wg with
      | .error pan => .error (.panicked pan)
      | .ok wg1 => .ok { s with wg := wg1, aggBusy := false, released := s.released + 1 }
    else .error .notEnabled

/-- A sequence of steps from a state. -/
def run (nonEcho : NonEchoParser) : Session → List Action → Except StepFault Session
  | s, [] => .ok s
  | s, a :: rest =>
    match step nonEcho s a with
    | .error f => .error f
    | .ok s1 => run nonEcho s1 rest

/-- The method `Wait`: blocked (`none`) while the counter is not zero, then the
host list. -/
def Wait (s : Session) : Option (List String) := if s.wg = 0 then some s.hosts else none

/-- The number of calls of `Ping` in a sequence of steps. -/
def pingCalls (acts : List Action) : Nat :=
  (acts.filter fun a => match a with | .ping _ => true | _ => false).length

/-- The address strings passed to `Ping` in a sequence of steps. -/
def submittedAddrs (acts : List Action) : List String :=
  acts.filterMap fun a => match a with | .ping ip => some ip | _ => none

/-- The string forms of the source addresses of the datagrams that the reads of
the `receivePing` goroutines returned, in the order of the reads. -/
def deliveredSources (acts : List Action) : List String :=
  acts.filterMap fun a =>
    match a with
    | .receive none (.datagram _ src) => some src.String
    | _ => none

/-- The strings among a sequence of values of `pq.results`. -/
def successes (outs : List Outcome) : List String :=
  outs.filterMap fun o => match o with | .str r => some r | .err _ => none

/-- All values sent on `pq.results` on behalf of one call of `Ping`: those of
its goroutine, then those of the `receivePing` it started, which runs against
the registry `pingsAtReceive` of that later moment. -/
def pingOutcomes (nonEcho : NonEchoParser) (pings : Registry) (ip : String) (v1 v2 : Nat)
    (marshalErr writeErr : Option GoError) (pingsAtReceive : Registry)
    (deadlineErr : Option GoError) (rd : ReadResult) : Except GoPanic (List Outcome) :=
  let eff := pingGoroutine pings ip v1 v2 marshalErr writeErr
  if eff.receives = 0 then .ok eff.sent
  else
    match receivePing nonEcho pingsAtReceive deadlineErr rd with
    | .error pan => .error pan
    | .ok out => .ok (eff.sent ++ out)

/-- The identifier and the sequence number that bytes carry when they parse as
an ICMPv4 echo reply. -/
def echoReplyFields (nonEcho : NonEchoParser) (b : List Byte) : Option (Int × Int) :=
  match ParseMessage nonEcho ProtocolICMP b with
  | .error _ => none
  | .ok msg =>
    if msg.Typ = ICMPTypeEchoReply then
      match msg.Body with
      | .echo e => some (e.ID, e.Seq)
      | .nonEcho => none
    else none

/-- The number of values the aggregator is done with: the ones it received,
less the one it holds between its append and its `wg.Done()`. -/
def processed (s : Session) : Nat := s.arrived.length - (if s.aggBusy then 1 else 0)

/-- The invariant of the session: the counter is the number of calls of `Ping`
minus the number of `wg.Done()`; every call is a goroutine still to run, a
started receive, or a value sent; the values sent are the ones that arrived at
the aggregator and the ones still blocked; the aggregator has released all it
received but the one it holds; the host list is the strings that arrived. -/
structure SessionInv (s : Session) : Prop where
  counter : s.wg = (s.submitted : Int) - (s.released : Int)
  calls : s.submitted = s.starting.length + s.receivers + s.sent.length
  stream : List.Perm s.sent (s.arrived ++ s.results)
  taken : s.arrived.length = s.released + (if s.aggBusy then 1 else 0)
  hostsEq : s.hosts = successes s.arrived

/-! ## Concrete inputs -/

/-- Body parsers that accept every body of the other message kinds. The
datagrams below are all of type echo reply, which never reaches them. -/
def noExtensions : NonEchoParser := fun _ _ => none

/-- An echo reply with identifier 1 and sequence 1 (type 0, code 0, checksum
`0xfffd`). -/
def loopbackReply : List Byte := [0, 0, 0xff, 0xfd, 0, 1, 0, 1]

/-- Scenario A: `Ping("127.0.0.1")`, the probe draws identifier 1 and sequence
1, the reply comes back from 127.0.0.1, the aggregator handles it. -/
def loopbackSweep : List Action :=
  [ .ping "127.0.0.1",
    .dispatch 0 1 1 none none,
    .receive none (.datagram loopbackReply { IP := [127, 0, 0, 1], Zone := "" }),
    .aggRecv 0,
    .aggDone ]

/-- The same sweep with the target written as an IPv4-mapped IPv6 address. -/
def mappedSweep : List Action :=
  [ .ping "::ffff:127.0.0.1",
    .dispatch 0 1 1 none none,
    .receive none (.datagram loopbackReply (parseIP "::ffff:127.0.0.1")),
    .aggRecv 0,
    .aggDone ]

/-- The address 10.0.0.1 as the source of a datagram. -/
def hostA : IPAddr := { IP := [10, 0, 0, 1], Zone := "" }

/-- The address 10.0.0.9, which no sweep below submits. -/
def stranger : IPAddr := { IP := [10, 0, 0, 9], Zone := "" }

/-- An echo reply with identifier 5 and sequence 7. -/
def replyA : List Byte := [0, 0, 0xff, 0xf3, 0, 5, 0, 7]

/-- Two targets, and the reply of the first one delivered to both receives. -/
def duplicateReplySweep : List Action :=
  [ .ping "10.0.0.1",
    .ping "10.0.0.2",
    .dispatch 0 5 7 none none,
    .dispatch 0 11 13 none none,
    .receive none (.datagram replyA hostA),
    .receive none (.datagram replyA hostA),
    .aggRecv 0, .aggDone, .aggRecv 0, .aggDone ]

/-- An echo reply with identifier 0 and sequence 0 (checksum `0xffff`). -/
def zeroReply : List Byte := [0, 0, 0xff, 0xff, 0, 0, 0, 0]

/-- One target, 10.0.0.1 with identifier 5 and sequence 7, and a datagram from
10.0.0.9 read by its receive. -/
def strangerSweep : List Action :=
  [ .ping "10.0.0.1",
    .dispatch 0 5 7 none none,
    .receive none (.datagram zeroReply stranger),
    .aggRecv 0,
    .aggDone ]

/-- Six bytes: an echo-reply header cut off after the identifier `0x1234`. -/
def truncatedReply : List Byte := [0, 0, 0xed, 0xcb, 0x12, 0x34]

/-- The registry after `Ping("10.0.0.1")` drew (5, 7) and a second
`Ping("10.0.0.1")` drew (11, 13). -/
def registryTwice : Registry :=
  (pingGoroutine (pingGoroutine [] "10.0.0.1" 5 7 none none).pings "10.0.0.1" 11 13
    none none).pings

/-- An echo reply with identifier 11 and sequence 13. -/
def replyB : List Byte := [0, 0, 0xff, 0xe7, 0, 11, 0, 13]

/-- Two targets: 127.0.0.1 answers, the read for 192.0.2.1 times out. The
aggregator is handed the error first; after eight steps it has released it. -/
def mixedSweepStart : List Action :=
  [ .ping "127.0.0.1",
    .ping "192.0.2.1",
    .dispatch 0 1 1 none none,
    .dispatch 0 2 2 none none,
    .receive none (.datagram loopbackReply { IP := [127, 0, 0, 1], Zone := "" }),
    .receive none (.timeout (.external "i/o timeout")),
    .aggRecv 1,
    .aggDone ]

/-- The sweep of `mixedSweepStart` to its end. -/
def mixedSweep : List Action := mixedSweepStart ++ [.aggRecv 0, .aggDone]

/-- The registry after `Ping("::ffff:10.0.0.1")` drew (5, 7) and a second
`Ping("::ffff:10.0.0.1")` drew (11, 13). -/
def registryMappedTwice : Registry :=
  (pingGoroutine (pingGoroutine [] "::ffff:10.0.0.1" 5 7 none none).pings "::ffff:10.0.0.1"
    11 13 none none).pings

/-- Two calls `Ping("::ffff:10.0.0.1")`; the reply to the later probe arrives
from 10.0.0.1 and the other read times out. -/
def mappedTwiceSweep : List Action :=
  [ .ping "::ffff:10.0.0.1",
    .dispatch 0 5 7 none none,
    .ping "::ffff:10.0.0.1",
    .dispatch 0 11 13 none none,
    .receive none (.datagram replyB hostA),
    .receive none (.timeout (.external "i/o timeout")),
    .aggRecv 0, .aggDone, .aggRecv 0, .aggDone ]

set_option maxRecDepth 100000

/-! ## Lemmas on parsing and validation -/

theorem parseMessage_echoReply (nonEcho : NonEchoParser) (c k1 k0 i1 i0 s1 s0 : Byte)
    (data : List Byte) :
    ParseMessage nonEcho ProtocolICMP ((0 : Byte) :: c :: k1 :: k0 :: i1 :: i0 :: s1 :: s0 :: data)
      = .ok { Typ := ICMPTypeEchoReply, Code := c.val, Checksum := bigEndianUint16 k1 k0,
              Body := .echo { ID := (bigEndianUint16 i1 i0 : Nat),
                              Seq := (bigEndianUint16 s1 s0 : Nat), Data := data } } := by
  simp [ParseMessage, ProtocolICMP, isEchoKind, parseEcho, ICMPTypeEchoReply]

theorem parseMessage_echoReply_inv (nonEcho : NonEchoParser) (b : List Byte) (msg : Message)
    (h : ParseMessage nonEcho ProtocolICMP b = .ok msg) (ht : msg.Typ = ICMPTypeEchoReply) :
    ∃ c k1 k0 i1 i0 s1 s0 data,
      b = (0 : Byte) :: c :: k1 :: k0 :: i1 :: i0 :: s1 :: s0 :: data := by
  match b, h with
  | [], h => simp [ParseMessage] at h
  | [_], h => simp [ParseMessage] at h
  | [_, _], h => simp [ParseMessage] at h
  | [_, _, _], h => simp [ParseMessage] at h
  | t :: c :: k1 :: k0 :: rest, h =>
    by_cases ht0 : t = 0
    · subst ht0
      match rest, h with
      | i1 :: i0 :: s1 :: s0 :: data, _ => exact ⟨c, k1, k0, i1, i0, s1, s0, data, rfl⟩
      | [], h => simp [ParseMessage, ProtocolICMP, isEchoKind, parseEcho] at h
      | [_], h => simp [ParseMessage, ProtocolICMP, isEchoKind, parseEcho] at h
      | [_, _], h => simp [ParseMessage, ProtocolICMP, isEchoKind, parseEcho] at h
      | [_, _, _], h => simp [ParseMessage, ProtocolICMP, isEchoKind, parseEcho] at h
    · exfalso
      have hv : t.val ≠ 0 := fun hv => ht0 (Fin.ext hv)
      simp only [ParseMessage, ProtocolICMP, if_true] at h
      split at h
      · cases h
      · injection h with h
        subst h
        simp [ICMPTypeEchoReply] at ht
        exact hv ht

theorem parseMessage_echoReply_body (nonEcho : NonEchoParser) (b : List Byte) (msg : Message)
    (h : ParseMessage nonEcho ProtocolICMP b = .ok msg) (ht : msg.Typ = ICMPTypeEchoReply) :
    ∃ e, msg.Body = .echo e := by
  obtain ⟨c, k1, k0, i1, i0, s1, s0, data, rfl⟩ := parseMessage_echoReply_inv nonEcho b msg h ht
  rw [parseMessage_echoReply] at h
  injection h with h
  subst h
  exact ⟨_, rfl⟩

theorem validateMessage_of_error (nonEcho : NonEchoParser) (b : List Byte) (p : ping)
    (err : GoError) (h : ParseMessage nonEcho ProtocolICMP b = .error err) :
    validateMessage nonEcho b p = .ok (some (.wrap "couldn't parse response" err)) := by
  have h1 : ParseMessage nonEcho 1 b = .error err := h
  simp [validateMessage, h1]

theorem validateMessage_of_other (nonEcho : NonEchoParser) (b : List Byte) (p : ping)
    (msg : Message) (h : ParseMessage nonEcho ProtocolICMP b = .ok msg)
    (ht : msg.Typ ≠ ICMPTypeEchoReply) :
    validateMessage nonEcho b p = .ok (some (.fresh "invalid response")) := by
  have h1 : ParseMessage nonEcho 1 b = .ok msg := h
  simp [validateMessage, h1, ht]

theorem validateMessage_of_echoReply (nonEcho : NonEchoParser) (b : List Byte) (p : ping)
    (msg : Message) (e : Echo) (h : ParseMessage nonEcho ProtocolICMP b = .ok msg)
    (ht : msg.Typ = ICMPTypeEchoReply) (hb : msg.Body = .echo e) :
    validateMessage nonEcho b p =
      if e.ID ≠ p.id ∨ e.Seq ≠ p.seq then .ok (some (.fresh "invalid response")) else .ok none := by
  have h1 : ParseMessage nonEcho 1 b = .ok msg := h
  simp [validateMessage, h1, ht, hb]

/-- The function `validateMessage` never panics: the type assertion is only
reached with an echo body. -/
theorem validateMessage_total (nonEcho : NonEchoParser) (b : List Byte) (p : ping) :
    ∃ r, validateMessage nonEcho b p = .ok r := by
  cases h : ParseMessage nonEcho ProtocolICMP b with
  | error err => exact ⟨_, validateMessage_of_error nonEcho b p err h⟩
  | ok msg =>
    by_cases ht : msg.Typ = ICMPTypeEchoReply
    · obtain ⟨e, he⟩ := parseMessage_echoReply_body nonEcho b msg h ht
      rw [validateMessage_of_echoReply nonEcho b p msg e h ht he]
      split <;> exact ⟨_, rfl⟩
    · exact ⟨_, validateMessage_of_other nonEcho b p msg h ht⟩

theorem validateMessage_ok_iff (nonEcho : NonEchoParser) (b : List Byte) (p : ping) :
    validateMessage nonEcho b p = .ok none ↔
      ∃ msg e, ParseMessage nonEcho ProtocolICMP b = .ok msg ∧ msg.Typ = ICMPTypeEchoReply ∧
        msg.Body = .echo e ∧ e.ID = p.id ∧ e.Seq = p.seq := by
  constructor
  · intro hv
    cases h : ParseMessage nonEcho ProtocolICMP b with
    | error err =>
      rw [validateMessage_of_error nonEcho b p err h] at hv
      cases hv
    | ok msg =>
      by_cases ht : msg.Typ = ICMPTypeEchoReply
      · obtain ⟨e, he⟩ := parseMessage_echoReply_body nonEcho b msg h ht
        rw [validateMessage_of_echoReply nonEcho b p msg e h ht he] at hv
        by_cases hid : e.ID ≠ p.id ∨ e.Seq ≠ p.seq
        · rw [if_pos hid] at hv
          cases hv
        · have h1 : e.ID = p.id := by
            by_contra hc
            exact hid (Or.inl hc)
          have h2 : e.Seq = p.seq := by
            by_contra hc
            exact hid (Or.inr hc)
          exact ⟨msg, e, rfl, ht, he, h1, h2⟩
      · rw [validateMessage_of_other nonEcho b p msg h ht] at hv
        cases hv
  · rintro ⟨msg, e, h, ht, hb, h1, h2⟩
    rw [validateMessage_of_echoReply nonEcho b p msg e h ht hb]
    have : ¬ (e.ID ≠ p.id ∨ e.Seq ≠ p.seq) := by
      rintro (hc | hc)
      · exact hc h1
      · exact hc h2
    rw [if_neg this]

/-! ## Lemmas on the receive path -/

theorem copyInto_header (buf : List Byte) (hbuf : 8 ≤ buf.length)
    (a0 a1 a2 a3 a4 a5 a6 a7 : Byte) (data : List Byte) :
    ∃ rest, copyInto buf (a0 :: a1 :: a2 :: a3 :: a4 :: a5 :: a6 :: a7 :: data)
      = a0 :: a1 :: a2 :: a3 :: a4 :: a5 :: a6 :: a7 :: rest := by
  obtain ⟨n, hn⟩ : ∃ n, buf.length = n + 8 := ⟨buf.length - 8, by omega⟩
  unfold copyInto
  rw [hn]
  exact ⟨_, rfl⟩

theorem receivePing_datagram (nonEcho : NonEchoParser) (pings : Registry) (payload : List Byte)
    (src : IPAddr) :
    receivePing nonEcho pings none (.datagram payload src) =
      match validateMessage nonEcho (copyInto (List.replicate 512 0) payload)
          (getPing pings src) with
      | .error pan => .error pan
      | .ok (some err) => .ok [.err (.wrap src.String err)]
      | .ok none => .ok [.str src.String] := by
  simp only [receivePing, setTimeout, readFrom]

/-- Every path of `receivePing` sends exactly one value and none panics. -/
theorem receivePing_one (nonEcho : NonEchoParser) (pings : Registry)
    (deadlineErr : Option GoError) (rd : ReadResult) :
    ∃ o, receivePing nonEcho pings deadlineErr rd = .ok [o] := by
  cases deadlineErr with
  | some e => exact ⟨_, rfl⟩
  | none =>
    cases rd with
    | timeout e => exact ⟨_, rfl⟩
    | failure e => exact ⟨_, rfl⟩
    | datagram payload src =>
      rw [receivePing_datagram]
      obtain ⟨r, hr⟩ := validateMessage_total nonEcho
        (copyInto (List.replicate 512 0) payload) (getPing pings src)
      rw [hr]
      cases r with
      | none => exact ⟨_, rfl⟩
      | some err => exact ⟨_, rfl⟩

/-- A string sent by `receivePing` is the string form of the source address of
a datagram that was read and validated against the registry. -/
theorem receivePing_str (nonEcho : NonEchoParser) (pings : Registry)
    (deadlineErr : Option GoError) (rd : ReadResult) (out : List Outcome) (r : String)
    (h : receivePing nonEcho pings deadlineErr rd = .ok out) (hr : Outcome.str r ∈ out) :
    ∃ payload src, deadlineErr = none ∧ rd = .datagram payload src ∧ r = src.String ∧
      out = [.str r] ∧
      validateMessage nonEcho (copyInto (List.replicate 512 0) payload) (getPing pings src)
        = .ok none := by
  cases deadlineErr with
  | some e =>
    simp [receivePing, setTimeout] at h
    subst h
    simp at hr
  | none =>
    cases rd with
    | timeout e =>
      simp [receivePing, setTimeout, readFrom] at h
      subst h
      simp at hr
    | failure e =>
      simp [receivePing, setTimeout, readFrom] at h
      subst h
      simp at hr
    | datagram payload src =>
      rw [receivePing_datagram] at h
      obtain ⟨v, hv⟩ := validateMessage_total nonEcho
        (copyInto (List.replicate 512 0) payload) (getPing pings src)
      rw [hv] at h
      cases v with
      | some err =>
        simp at h
        subst h
        simp at hr
      | none =>
        simp at h
        subst h
        simp at hr
        exact ⟨payload, src, rfl, rfl, hr, by rw [hr], hv⟩

/-! ## Lemmas on the registry -/

theorem Registry.get_put_same (m : Registry) (k : String) (p : ping) :
    (m.put k p).get k = p := by
  simp [Registry.get, Registry.put, List.lookup]

theorem Registry.lookup_filter_ne (m : Registry) (k k1 : String) (h : k1 ≠ k) :
    List.lookup k1 (m.filter fun e => e.1 ≠ k) = List.lookup k1 m := by
  induction m with
  | nil => rfl
  | cons e rest ih =>
    obtain ⟨ek, ep⟩ := e
    by_cases hek : ek = k
    · subst hek
      have hne : (k1 == ek) = false := by simpa using h
      simp only [List.filter, List.lookup, hne, ne_eq, not_true_eq_false, decide_False]
      exact ih
    · by_cases h1 : k1 = ek
      · subst h1
        simp [List.filter, hek, List.lookup]
      · have hne : (k1 == ek) = false := by simpa using h1
        simp only [List.filter, hek, List.lookup, hne, ne_eq, not_false_eq_true, decide_True]
        exact ih

theorem Registry.get_put_other (m : Registry) (k k1 : String) (p : ping) (h : k1 ≠ k) :
    (m.put k p).get k1 = m.get k1 := by
  have hne : (k1 == k) = false := by simpa using h
  simp only [Registry.get, Registry.put, List.lookup, hne]
  rw [Registry.lookup_filter_ne m k k1 h]

theorem Registry.entries_put (m : Registry) (k : String) (p : ping) :
    (m.put k p).filter (fun e => e.1 = k) = [(k, p)] := by
  simp [Registry.put, List.filter_filter]

/-! ## The invariant of the session -/

theorem sessionInv_New : SessionInv New :=
  { counter := rfl, calls := rfl, stream := List.Perm.refl _, taken := rfl, hostsEq := rfl }

theorem perm_cons_eraseIdx {α : Type} (l : List α) (k : Nat) (a : α) (h : l[k]? = some a) :
    List.Perm l (a :: l.eraseIdx k) := by
  induction l generalizing k with
  | nil => simp at h
  | cons x rest ih =>
    cases k with
    | zero =>
      simp at h
      subst h
      exact List.Perm.refl _
    | succ n =>
      simp at h
      have := ih n (by simpa using h)
      exact (List.Perm.cons x this).trans (List.Perm.swap a x _)

theorem getElem?_lt {α : Type} (l : List α) (k : Nat) (a : α) (h : l[k]? = some a) :
    k < l.length := by
  rw [List.getElem?_eq_some] at h
  exact h.1

theorem successes_append (a b : List Outcome) :
    successes (a ++ b) = successes a ++ successes b := by
  simp [successes, List.filterMap_append]

theorem appendHost_eq (hosts : List String) (res : Outcome) :
    appendHost hosts res = hosts ++ successes [res] := by
  cases res <;> simp [appendHost, successes]

theorem pingGoroutine_fail (pings : Registry) (ip : String) (v1 v2 : Nat)
    (marshalErr writeErr : Option GoError) (err : GoError)
    (h : sendPing (newPing ip v1 v2) marshalErr writeErr = some err) :
    pingGoroutine pings ip v1 v2 marshalErr writeErr
      = { pings := pings.put ip (newPing ip v1 v2), sent := [.err err], receives := 0 } := by
  simp [pingGoroutine, h]

theorem pingGoroutine_sent (pings : Registry) (ip : String) (v1 v2 : Nat)
    (marshalErr writeErr : Option GoError)
    (h : sendPing (newPing ip v1 v2) marshalErr writeErr = none) :
    pingGoroutine pings ip v1 v2 marshalErr writeErr
      = { pings := pings.put ip (newPing ip v1 v2), sent := [], receives := 1 } := by
  simp [pingGoroutine, h]

theorem pingGoroutine_sent_length (pings : Registry) (ip : String) (v1 v2 : Nat)
    (marshalErr writeErr : Option GoError) :
    (pingGoroutine pings ip v1 v2 marshalErr writeErr).sent.length
      + (pingGoroutine pings ip v1 v2 marshalErr writeErr).receives = 1 := by
  cases h : sendPing (newPing ip v1 v2) marshalErr writeErr with
  | none => rw [pingGoroutine_sent _ _ _ _ _ _ h]; rfl
  | some err => rw [pingGoroutine_fail _ _ _ _ _ _ err h]; rfl

theorem pingGoroutine_no_str (pings : Registry) (ip : String) (v1 v2 : Nat)
    (marshalErr writeErr : Option GoError) :
    successes (pingGoroutine pings ip v1 v2 marshalErr writeErr).sent = [] := by
  cases h : sendPing (newPing ip v1 v2) marshalErr writeErr with
  | none => rw [pingGoroutine_sent _ _ _ _ _ _ h]; rfl
  | some err => rw [pingGoroutine_fail _ _ _ _ _ _ err h]; rfl

theorem wgDone_ok (wg : Int) (h : 1 ≤ wg) : wgDone wg = .ok (wg - 1) := by
  unfold wgDone
  rw [if_neg (by omega)]

/-- No step panics in a state that satisfies the invariant. -/
theorem step_no_panic (nonEcho : NonEchoParser) (s : Session) (a : Action) (hs : SessionInv s)
    (p : GoPanic) : step nonEcho s a ≠ .error (.panicked p) := by
  cases a with
  | ping ip => simp [step]
  | dispatch k v1 v2 me we =>
    simp only [step]
    cases s.starting[k]? <;> simp
  | receive dl rd =>
    simp only [step]
    by_cases h0 : s.receivers = 0
    · simp [h0]
    · obtain ⟨o, ho⟩ := receivePing_one nonEcho s.pings dl rd
      simp [h0, ho]
  | aggRecv k =>
    simp only [step]
    cases s.aggBusy
    · cases s.results[k]? <;> simp
    · simp
  | aggDone =>
    simp only [step]
    cases hb : s.aggBusy
    · simp
    · have h1 := hs.taken
      have h2 := hs.stream.length_eq
      have h3 := hs.calls
      have h4 := hs.counter
      simp only [hb, if_true, List.length_append] at h1 h2
      have : 1 ≤ s.wg := by omega
      simp [wgDone_ok s.wg this]

/-- Every step keeps the invariant. -/
theorem step_inv (nonEcho : NonEchoParser) (s s1 : Session) (a : Action) (hs : SessionInv s)
    (h : step nonEcho s a = .ok s1) : SessionInv s1 := by
  obtain ⟨hc, hcalls, hstream, htaken, hhosts⟩ := hs
  cases a with
  | ping ip =>
    simp only [step, Except.ok.injEq] at h
    subst h
    refine ⟨?_, ?_, hstream, htaken, hhosts⟩
    · simp only [hc]; push_cast; ring
    · simp only [hcalls, List.length_append, List.length_singleton]; omega
  | dispatch k v1 v2 me we =>
    simp only [step] at h
    cases hk : s.starting[k]? with
    | none => simp [hk] at h
    | some ip =>
      simp only [hk, Except.ok.injEq] at h
      subst h
      have hlen := pingGoroutine_sent_length s.pings ip v1 v2 me we
      have hklt := getElem?_lt _ _ _ hk
      refine ⟨hc, ?_, ?_, htaken, hhosts⟩
      · simp only [hcalls, List.length_append, List.length_eraseIdx_of_lt hklt]
        omega
      · simp only
        rw [← List.append_assoc]
        exact List.Perm.append_right _ hstream
  | receive dl rd =>
    simp only [step] at h
    by_cases h0 : s.receivers = 0
    · simp [h0] at h
    · obtain ⟨o, ho⟩ := receivePing_one nonEcho s.pings dl rd
      simp only [h0, if_false, ho, Except.ok.injEq] at h
      subst h
      refine ⟨hc, ?_, ?_, htaken, hhosts⟩
      · simp only [hcalls, List.length_append, List.length_singleton]
        omega
      · simp only
        rw [← List.append_assoc]
        exact List.Perm.append_right _ hstream
  | aggRecv k =>
    simp only [step] at h
    cases hb : s.aggBusy with
    | true => simp [hb] at h
    | false =>
      cases hk : s.results[k]? with
      | none => simp [hb, hk] at h
      | some res =>
        simp only [hb, hk, Bool.false_eq_true, if_false, Except.ok.injEq] at h
        subst h
        refine ⟨hc, hcalls, ?_, ?_, ?_⟩
        · simp only
          refine hstream.trans ?_
          have hp := perm_cons_eraseIdx s.results k res hk
          rw [List.append_assoc]
          exact List.Perm.append_left _ hp
        · simp only [List.length_append, List.length_singleton, htaken, hb, if_true]
          simp
        · simp only [successes_append, appendHost_eq, hhosts]
  | aggDone =>
    simp only [step] at h
    cases hb : s.aggBusy with
    | false => simp [hb] at h
    | true =>
      have h2 := hstream.length_eq
      simp only [hb, if_true, List.length_append] at htaken h2
      have hwg : 1 ≤ s.wg := by omega
      simp only [hb, if_true, wgDone_ok s.wg hwg, Except.ok.injEq] at h
      subst h
      refine ⟨?_, hcalls, hstream, ?_, hhosts⟩
      · simp only [hc]; push_cast; ring
      · simp only [htaken]; simp

theorem run_inv (nonEcho : NonEchoParser) (acts : List Action) (s0 s : Session)
    (h0 : SessionInv s0) (h : run nonEcho s0 acts = .ok s) : SessionInv s := by
  induction acts generalizing s0 with
  | nil =>
    simp only [run, Except.ok.injEq] at h
    subst h
    exact h0
  | cons a rest ih =>
    simp only [run] at h
    cases hs : step nonEcho s0 a with
    | error f => simp [hs] at h
    | ok s1 =>
      simp only [hs] at h
      exact ih s1 (step_inv nonEcho s0 s1 a h0 hs) h

theorem run_no_panic (nonEcho : NonEchoParser) (acts : List Action) (s0 : Session)
    (h0 : SessionInv s0) (p : GoPanic) : run nonEcho s0 acts ≠ .error (.panicked p) := by
  induction acts generalizing s0 with
  | nil => simp [run]
  | cons a rest ih =>
    simp only [run]
    cases hs : step nonEcho s0 a with
    | error f =>
      simp only
      intro hf
      injection hf with hf
      subst hf
      exact step_no_panic nonEcho s0 a h0 p hs
    | ok s1 =>
      simp only
      exact ih s1 (step_inv nonEcho s0 s1 a h0 hs)

theorem step_submitted (nonEcho : NonEchoParser) (s s1 : Session) (a : Action)
    (h : step nonEcho s a = .ok s1) : s1.submitted = s.submitted + pingCalls [a] := by
  cases a with
  | ping ip =>
    simp only [step, Except.ok.injEq] at h
    subst h
    rfl
  | dispatch k v1 v2 me we =>
    simp only [step] at h
    cases hk : s.starting[k]? with
    | none => simp [hk] at h
    | some ip =>
      simp only [hk, Except.ok.injEq] at h
      subst h
      rfl
  | receive dl rd =>
    simp only [step] at h
    by_cases h0 : s.receivers = 0
    · simp [h0] at h
    · obtain ⟨o, ho⟩ := receivePing_one nonEcho s.pings dl rd
      simp only [h0, if_false, ho, Except.ok.injEq] at h
      subst h
      rfl
  | aggRecv k =>
    simp only [step] at h
    cases hb : s.aggBusy with
    | true => simp [hb] at h
    | false =>
      cases hk : s.results[k]? with
      | none => simp [hb, hk] at h
      | some res =>
        simp only [hb, hk, Bool.false_eq_true, if_false, Except.ok.injEq] at h
        subst h
        rfl
  | aggDone =>
    simp only [step] at h
    cases hb : s.aggBusy with
    | false => simp [hb] at h
    | true =>
      simp only [hb, if_true] at h
      cases hw : wgDone s.wg with
      | error pan => simp [hw] at h
      | ok wg1 =>
        simp only [hw, Except.ok.injEq] at h
        subst h
        rfl

theorem pingCalls_cons (a : Action) (rest : List Action) :
    pingCalls (a :: rest) = pingCalls [a] + pingCalls rest := by
  cases a <;> simp [pingCalls, List.filter]
  omega

theorem run_submitted (nonEcho : NonEchoParser) (acts : List Action) (s0 s : Session)
    (h : run nonEcho s0 acts = .ok s) : s.submitted = s0.submitted + pingCalls acts := by
  induction acts generalizing s0 with
  | nil =>
    simp only [run, Except.ok.injEq] at h
    subst h
    rfl
  | cons a rest ih =>
    simp only [run] at h
    cases hs : step nonEcho s0 a with
    | error f => simp [hs] at h
    | ok s1 =>
      simp only [hs] at h
      rw [ih s1 h, step_submitted nonEcho s0 s1 a hs, pingCalls_cons a rest]
      omega

/-- The values a step sends: their strings are source addresses of datagrams
read in that step. -/
theorem step_sent (nonEcho : NonEchoParser) (s s1 : Session) (a : Action)
    (h : step nonEcho s a = .ok s1) :
    ∃ ext, s1.sent = s.sent ++ ext ∧ List.Sublist (successes ext) (deliveredSources [a]) := by
  cases a with
  | ping ip =>
    simp only [step, Except.ok.injEq] at h
    subst h
    exact ⟨[], by simp, by simp [successes]⟩
  | dispatch k v1 v2 me we =>
    simp only [step] at h
    cases hk : s.starting[k]? with
    | none => simp [hk] at h
    | some ip =>
      simp only [hk, Except.ok.injEq] at h
      subst h
      exact ⟨_, rfl, by rw [pingGoroutine_no_str]; exact List.nil_sublist _⟩
  | receive dl rd =>
    simp only [step] at h
    by_cases h0 : s.receivers = 0
    · simp [h0] at h
    · obtain ⟨o, ho⟩ := receivePing_one nonEcho s.pings dl rd
      simp only [h0, if_false, ho, Except.ok.injEq] at h
      subst h
      refine ⟨[o], rfl, ?_⟩
      cases o with
      | err e => simp [successes]
      | str r =>
        obtain ⟨payload, src, hdl, hrd, hr, -, -⟩ :=
          receivePing_str nonEcho s.pings dl rd [.str r] r ho (by simp)
        subst hdl
        subst hrd
        subst hr
        simp [successes, deliveredSources]
  | aggRecv k =>
    simp only [step] at h
    cases hb : s.aggBusy with
    | true => simp [hb] at h
    | false =>
      cases hk : s.results[k]? with
      | none => simp [hb, hk] at h
      | some res =>
        simp only [hb, hk, Bool.false_eq_true, if_false, Except.ok.injEq] at h
        subst h
        exact ⟨[], by simp, by simp [successes]⟩
  | aggDone =>
    simp only [step] at h
    cases hb : s.aggBusy with
    | false => simp [hb] at h
    | true =>
      simp only [hb, if_true] at h
      cases hw : wgDone s.wg with
      | error pan => simp [hw] at h
      | ok wg1 =>
        simp only [hw, Except.ok.injEq] at h
        subst h
        exact ⟨[], by simp, by simp [successes]⟩

theorem deliveredSources_cons (a : Action) (rest : List Action) :
    deliveredSources (a :: rest) = deliveredSources [a] ++ deliveredSources rest := by
  simp only [deliveredSources, List.filterMap_cons, List.filterMap_nil]
  split <;> simp

theorem run_sent (nonEcho : NonEchoParser) (acts : List Action) (s0 s : Session)
    (h : run nonEcho s0 acts = .ok s) :
    ∃ ext, s.sent = s0.sent ++ ext ∧ List.Sublist (successes ext) (deliveredSources acts) := by
  induction acts generalizing s0 with
  | nil =>
    simp only [run, Except.ok.injEq] at h
    subst h
    exact ⟨[], by simp, by simp [successes]⟩
  | cons a rest ih =>
    simp only [run] at h
    cases hs : step nonEcho s0 a with
    | error f => simp [hs] at h
    | ok s1 =>
      simp only [hs] at h
      obtain ⟨e1, h1, hsub1⟩ := step_sent nonEcho s0 s1 a hs
      obtain ⟨e2, h2, hsub2⟩ := ih s1 h
      refine ⟨e1 ++ e2, by rw [h2, h1, List.append_assoc], ?_⟩
      rw [successes_append, deliveredSources_cons]
      exact List.Sublist.append hsub1 hsub2

/-! ## Reply validation -/

theorem echoReplyFields_eq_some (nonEcho : NonEchoParser) (b : List Byte) (i q : Int) :
    echoReplyFields nonEcho b = some (i, q) ↔
      ∃ msg e, ParseMessage nonEcho ProtocolICMP b = .ok msg ∧ msg.Typ = ICMPTypeEchoReply ∧
        msg.Body = .echo e ∧ e.ID = i ∧ e.Seq = q := by
  unfold echoReplyFields
  cases h : ParseMessage nonEcho ProtocolICMP b with
  | error err => simp
  | ok msg =>
    by_cases ht : msg.Typ = ICMPTypeEchoReply
    · obtain ⟨e, he⟩ := parseMessage_echoReply_body nonEcho b msg h ht
      simp only [ht, if_true, he, Option.some.injEq, Prod.mk.injEq, Except.ok.injEq]
      constructor
      · rintro ⟨h1, h2⟩
        exact ⟨msg, e, rfl, ht, he, h1, h2⟩
      · rintro ⟨m, e1, hm, -, hb, h1, h2⟩
        subst hm
        rw [he] at hb
        injection hb with hb
        subst hb
        exact ⟨h1, h2⟩
    · simp only [ht, if_false]
      constructor
      · intro h0; cases h0
      · rintro ⟨m, e1, hm, ht1, -⟩
        injection hm with hm
        subst hm
        exact absurd ht1 ht

/-- What `readFrom` hands on agrees with the datagram on the fields of a
complete echo reply. -/
theorem echoReplyFields_copyInto (nonEcho : NonEchoParser) (payload : List Byte) (i q : Int)
    (h : echoReplyFields nonEcho payload = some (i, q)) :
    echoReplyFields nonEcho (copyInto (List.replicate 512 0) payload) = some (i, q) := by
  rw [echoReplyFields_eq_some] at h
  obtain ⟨msg, e, hm, ht, hb, h1, h2⟩ := h
  obtain ⟨c, k1, k0, i1, i0, s1, s0, data, rfl⟩ :=
    parseMessage_echoReply_inv nonEcho payload msg hm ht
  obtain ⟨rest, hrest⟩ := copyInto_header (List.replicate 512 0) (by simp) 0 c k1 k0 i1 i0 s1 s0 data
  rw [hrest, echoReplyFields_eq_some]
  rw [parseMessage_echoReply] at hm
  injection hm with hm
  subst hm
  injection hb with hb
  subst hb
  exact ⟨_, _, parseMessage_echoReply nonEcho c k1 k0 i1 i0 s1 s0 rest, rfl, rfl, h1, h2⟩

theorem validateMessage_ok_iff_fields (nonEcho : NonEchoParser) (b : List Byte) (p : ping) :
    validateMessage nonEcho b p = .ok none ↔ echoReplyFields nonEcho b = some (p.id, p.seq) := by
  rw [validateMessage_ok_iff, echoReplyFields_eq_some]

theorem echoReplyFields_echoReply (nonEcho : NonEchoParser) (c k1 k0 i1 i0 s1 s0 : Byte)
    (data : List Byte) :
    echoReplyFields nonEcho ((0 : Byte) :: c :: k1 :: k0 :: i1 :: i0 :: s1 :: s0 :: data)
      = some (((bigEndianUint16 i1 i0 : Nat) : Int), ((bigEndianUint16 s1 s0 : Nat) : Int)) := by
  rw [echoReplyFields_eq_some]
  exact ⟨_, _, parseMessage_echoReply nonEcho c k1 k0 i1 i0 s1 s0 data, rfl, rfl, rfl, rfl⟩

theorem echoReplyFields_of_type_ne (nonEcho : NonEchoParser) (t : Byte) (rest : List Byte)
    (ht : t ≠ 0) : echoReplyFields nonEcho (t :: rest) = none := by
  cases h : echoReplyFields nonEcho (t :: rest) with
  | none => rfl
  | some pr =>
    exfalso
    obtain ⟨i, q⟩ := pr
    rw [echoReplyFields_eq_some] at h
    obtain ⟨msg, e, hm, hty, -⟩ := h
    obtain ⟨c, k1, k0, i1, i0, s1, s0, data, hb⟩ :=
      parseMessage_echoReply_inv nonEcho (t :: rest) msg hm hty
    injection hb with h0 _
    exact ht h0

theorem receivable_cases (payload : List Byte) (h : Receivable payload) :
    ∃ a0 a1 a2 a3 a4 a5 a6 a7 data,
      payload = a0 :: a1 :: a2 :: a3 :: a4 :: a5 :: a6 :: a7 :: data := by
  unfold Receivable at h
  match payload, h with
  | a0 :: a1 :: a2 :: a3 :: a4 :: a5 :: a6 :: a7 :: data, _ =>
    exact ⟨a0, a1, a2, a3, a4, a5, a6, a7, data, rfl⟩
  | [], h => simp at h
  | [_], h => simp at h
  | [_, _], h => simp at h
  | [_, _, _], h => simp at h
  | [_, _, _, _], h => simp at h
  | [_, _, _, _, _], h => simp at h
  | [_, _, _, _, _, _], h => simp at h
  | [_, _, _, _, _, _, _], h => simp at h

/-- On a datagram the socket can return, the buffer of `readFrom` carries the
same echo-reply fields as the datagram, or none as the datagram does. -/
theorem echoReplyFields_readFrom (nonEcho : NonEchoParser) (payload : List Byte)
    (h : Receivable payload) :
    echoReplyFields nonEcho (copyInto (List.replicate 512 0) payload)
      = echoReplyFields nonEcho payload := by
  obtain ⟨a0, a1, a2, a3, a4, a5, a6, a7, data, rfl⟩ := receivable_cases payload h
  obtain ⟨rest, hrest⟩ :=
    copyInto_header (List.replicate 512 0) (by simp) a0 a1 a2 a3 a4 a5 a6 a7 data
  rw [hrest]
  by_cases h0 : a0 = 0
  · subst h0
    rw [echoReplyFields_echoReply, echoReplyFields_echoReply]
  · rw [echoReplyFields_of_type_ne nonEcho a0 _ h0, echoReplyFields_of_type_ne nonEcho a0 _ h0]

theorem readFrom_datagram (payload : List Byte) (src : IPAddr) :
    readFrom (.datagram payload src) = .ok (copyInto (List.replicate 512 0) payload, src) := by
  simp only [readFrom]

/-- C1: for every datagram that `ReadFrom` can return and every probe `p`,
`validateMessage` on what `readFrom` hands over returns nil exactly when the
datagram parses as an ICMPv4 message of type echo reply whose identifier is
`p.id` and whose sequence is `p.seq`, and it never panics. So with `p` the probe
that `getPing` fetches for the source address, `receivePing` sends the string
of the source address when the datagram is such a reply and an error when it is
not, and the aggregator leaves the host list as it is on that error. A reply
whose identifier or sequence differs from that probe's yields the error
whatever its source address and length. -/
theorem validateMessage_accepts_iff_match (nonEcho : NonEchoParser) :
    (∀ (payload : List Byte) (src : IPAddr) (p : ping), Receivable payload →
      ∃ msgBytes, readFrom (.datagram payload src) = .ok (msgBytes, src) ∧
        (validateMessage nonEcho msgBytes p = .ok none ↔
          ∃ msg e, ParseMessage nonEcho ProtocolICMP payload = .ok msg ∧
            msg.Typ = ICMPTypeEchoReply ∧ msg.Body = .echo e ∧ e.ID = p.id ∧ e.Seq = p.seq) ∧
        ∃ r, validateMessage nonEcho msgBytes p = .ok r) ∧
    (∀ (pings : Registry) (payload : List Byte) (src : IPAddr), Receivable payload →
      (∃ msg e, ParseMessage nonEcho ProtocolICMP payload = .ok msg ∧
          msg.Typ = ICMPTypeEchoReply ∧ msg.Body = .echo e ∧
          e.ID = (getPing pings src).id ∧ e.Seq = (getPing pings src).seq) →
      receivePing nonEcho pings none (.datagram payload src) = .ok [.str src.String]) ∧
    (∀ (pings : Registry) (deadlineErr : Option GoError) (payload : List Byte) (src : IPAddr)
        (hosts : List String), Receivable payload →
      (¬ ∃ msg e, ParseMessage nonEcho ProtocolICMP payload = .ok msg ∧
          msg.Typ = ICMPTypeEchoReply ∧ msg.Body = .echo e ∧
          e.ID = (getPing pings src).id ∧ e.Seq = (getPing pings src).seq) →
      ∃ err, receivePing nonEcho pings deadlineErr (.datagram payload src) = .ok [.err err] ∧
        appendHost hosts (.err err) = hosts) ∧
    (∀ (pings : Registry) (deadlineErr : Option GoError) (payload : List Byte) (src : IPAddr)
        (msg : Message) (e : Echo) (hosts : List String),
      ParseMessage nonEcho ProtocolICMP payload = .ok msg → msg.Typ = ICMPTypeEchoReply →
      msg.Body = .echo e →
      (e.ID ≠ (getPing pings src).id ∨ e.Seq ≠ (getPing pings src).seq) →
      ∃ err, receivePing nonEcho pings deadlineErr (.datagram payload src) = .ok [.err err] ∧
        appendHost hosts (.err err) = hosts) := by
  have key : ∀ (payload : List Byte) (p : ping), Receivable payload →
      (validateMessage nonEcho (copyInto (List.replicate 512 0) payload) p = .ok none ↔
        ∃ msg e, ParseMessage nonEcho ProtocolICMP payload = .ok msg ∧
          msg.Typ = ICMPTypeEchoReply ∧ msg.Body = .echo e ∧ e.ID = p.id ∧ e.Seq = p.seq) := by
    intro payload p hr
    rw [validateMessage_ok_iff_fields, echoReplyFields_readFrom nonEcho payload hr,
      echoReplyFields_eq_some]
  have reject : ∀ (pings : Registry) (deadlineErr : Option GoError) (payload : List Byte)
      (src : IPAddr) (hosts : List String),
      validateMessage nonEcho (copyInto (List.replicate 512 0) payload) (getPing pings src)
        ≠ .ok none →
      ∃ err, receivePing nonEcho pings deadlineErr (.datagram payload src) = .ok [.err err] ∧
        appendHost hosts (.err err) = hosts := by
    intro pings deadlineErr payload src hosts hne
    cases deadlineErr with
    | some d => exact ⟨_, rfl, rfl⟩
    | none =>
      rw [receivePing_datagram]
      obtain ⟨v, hv⟩ := validateMessage_total nonEcho
        (copyInto (List.replicate 512 0) payload) (getPing pings src)
      cases v with
      | some err =>
        rw [hv]
        exact ⟨_, rfl, rfl⟩
      | none => exact absurd hv hne
  refine ⟨?_, ?_, ?_, ?_⟩
  · intro payload src p hr
    exact ⟨_, readFrom_datagram payload src, key payload p hr, validateMessage_total nonEcho _ p⟩
  · intro pings payload src hr hmatch
    rw [receivePing_datagram, (key payload (getPing pings src) hr).mpr hmatch]
  · intro pings deadlineErr payload src hosts hr hno
    exact reject pings deadlineErr payload src hosts
      (fun hv => hno ((key payload (getPing pings src) hr).mp hv))
  · intro pings deadlineErr payload src msg e hosts hm ht hb hne
    have hf : echoReplyFields nonEcho payload = some (e.ID, e.Seq) :=
      (echoReplyFields_eq_some nonEcho payload e.ID e.Seq).mpr ⟨msg, e, hm, ht, hb, rfl, rfl⟩
    have hbuf := echoReplyFields_copyInto nonEcho payload e.ID e.Seq hf
    refine reject pings deadlineErr payload src hosts (fun hv => ?_)
    rw [validateMessage_ok_iff_fields, hbuf] at hv
    injection hv with hv
    injection hv with h1 h2
    rcases hne with hne | hne
    · exact hne h1
    · exact hne h2

/-- C1, at an input: the registry holds (11, 13) for 10.0.0.1; the reply with
that pair from 10.0.0.1 makes `receivePing` send "10.0.0.1", and the reply with
(5, 7) from 10.0.0.1 makes it send an error. -/
theorem validateMessage_accepts_iff_match_witness :
    receivePing noExtensions registryTwice none (.datagram replyB hostA)
      = .ok [.str "10.0.0.1"] ∧
    ∃ err, receivePing noExtensions registryTwice none (.datagram replyA hostA) = .ok [.err err] ∧
      appendHost [] (.err err) = [] :=
  ⟨(validateMessage_accepts_iff_match noExtensions).2.1 registryTwice replyB hostA (by decide)
      ⟨{ Typ := ICMPTypeEchoReply, Code := 0, Checksum := 0xffe7,
         Body := .echo { ID := 11, Seq := 13, Data := [] } },
       { ID := 11, Seq := 13, Data := [] }, rfl, rfl, rfl, by decide, by decide⟩,
   (validateMessage_accepts_iff_match noExtensions).2.2.2 registryTwice none replyA hostA
    { Typ := ICMPTypeEchoReply, Code := 0, Checksum := 0xfff3,
      Body := .echo { ID := 5, Seq := 7, Data := [] } }
    { ID := 5, Seq := 7, Data := [] } [] rfl rfl rfl (by decide)⟩

/-! ## Malformed replies -/

/-- C9: the identifier and the sequence number of every probe that `Ping`
builds lie in [0, 32767], for every draw of the random source; so each is below
2^16 and fits the 16-bit field of the echo message. -/
theorem newPing_fields_in_range (ip : String) (v1 v2 : Nat) :
    (0 ≤ (newPing ip v1 v2).id ∧ (newPing ip v1 v2).id ≤ 32767) ∧
    (0 ≤ (newPing ip v1 v2).seq ∧ (newPing ip v1 v2).seq ≤ 32767) ∧
    (newPing ip v1 v2).id < 2 ^ 16 ∧ (newPing ip v1 v2).seq < 2 ^ 16 := by
  have hmask : ¬ (MaxInt16 &&& (MaxInt16 - 1) = 0) := by decide
  have h1 : v1 % MaxInt16 < 32767 := Nat.mod_lt _ (by decide)
  have h2 : v2 % MaxInt16 < 32767 := Nat.mod_lt _ (by decide)
  simp only [newPing, Intn, hmask, if_false]
  refine ⟨⟨?_, ?_⟩, ⟨?_, ?_⟩, ?_, ?_⟩ <;> omega

/-! ## One call of `Ping` -/

/-- C4: the goroutine of `Ping` and the `receivePing` it may start send exactly
one value on `pq.results` between them and do not panic. When `sendPing` fails
the goroutine sends that error and starts no receive; when it succeeds the
goroutine sends nothing and starts one receive, which sends exactly one value:
an error when setting the deadline fails, when the read fails or times out, and
when validation fails, and the string of the source address when the reply
validates. -/
theorem ping_sends_exactly_one (nonEcho : NonEchoParser) (pings : Registry) (ip : String)
    (v1 v2 : Nat) (marshalErr writeErr : Option GoError) (pingsAtReceive : Registry)
    (deadlineErr : Option GoError) (rd : ReadResult) :
    (∃ o, pingOutcomes nonEcho pings ip v1 v2 marshalErr writeErr pingsAtReceive deadlineErr rd
        = .ok [o]) ∧
    (∀ err, sendPing (newPing ip v1 v2) marshalErr writeErr = some err →
      (pingGoroutine pings ip v1 v2 marshalErr writeErr).sent = [.err err] ∧
      (pingGoroutine pings ip v1 v2 marshalErr writeErr).receives = 0 ∧
      pingOutcomes nonEcho pings ip v1 v2 marshalErr writeErr pingsAtReceive deadlineErr rd
        = .ok [.err err]) ∧
    (sendPing (newPing ip v1 v2) marshalErr writeErr = none →
      (pingGoroutine pings ip v1 v2 marshalErr writeErr).sent = [] ∧
      (pingGoroutine pings ip v1 v2 marshalErr writeErr).receives = 1 ∧
      pingOutcomes nonEcho pings ip v1 v2 marshalErr writeErr pingsAtReceive deadlineErr rd
        = receivePing nonEcho pingsAtReceive deadlineErr rd) ∧
    (∃ o, receivePing nonEcho pingsAtReceive deadlineErr rd = .ok [o]) ∧
    (∀ e, receivePing nonEcho pingsAtReceive (some e) rd
        = .ok [.err (.wrap "couldn't set response deadline" e)]) ∧
    (∀ e, receivePing nonEcho pingsAtReceive none (.timeout e)
        = .ok [.err (.wrap "couldn't set response deadline" e)]) ∧
    (∀ e, receivePing nonEcho pingsAtReceive none (.failure e)
        = .ok [.err (.wrap "couldn't receive response" e)]) ∧
    (∀ payload src,
      (∀ err, validateMessage nonEcho (copyInto (List.replicate 512 0) payload)
            (getPing pingsAtReceive src) = .ok (some err) →
          receivePing nonEcho pingsAtReceive none (.datagram payload src)
            = .ok [.err (.wrap src.String err)]) ∧
      (validateMessage nonEcho (copyInto (List.replicate 512 0) payload)
            (getPing pingsAtReceive src) = .ok none →
          receivePing nonEcho pingsAtReceive none (.datagram payload src)
            = .ok [.str src.String])) := by
  obtain ⟨o, ho⟩ := receivePing_one nonEcho pingsAtReceive deadlineErr rd
  have hfail : ∀ err, sendPing (newPing ip v1 v2) marshalErr writeErr = some err →
      pingOutcomes nonEcho pings ip v1 v2 marshalErr writeErr pingsAtReceive deadlineErr rd
        = .ok [.err err] := by
    intro err h
    simp [pingOutcomes, pingGoroutine_fail _ _ _ _ _ _ err h]
  have hsent : sendPing (newPing ip v1 v2) marshalErr writeErr = none →
      pingOutcomes nonEcho pings ip v1 v2 marshalErr writeErr pingsAtReceive deadlineErr rd
        = receivePing nonEcho pingsAtReceive deadlineErr rd := by
    intro h
    simp [pingOutcomes, pingGoroutine_sent _ _ _ _ _ _ h, ho]
  refine ⟨?_, ?_, ?_, ⟨o, ho⟩, fun e => rfl, fun e => rfl, fun e => rfl, ?_⟩
  · cases h : sendPing (newPing ip v1 v2) marshalErr writeErr with
    | some err => exact ⟨_, hfail err h⟩
    | none => exact ⟨o, by rw [hsent h, ho]⟩
  · intro err h
    refine ⟨?_, ?_, hfail err h⟩ <;> rw [pingGoroutine_fail _ _ _ _ _ _ err h]
  · intro h
    refine ⟨?_, ?_, hsent h⟩ <;> rw [pingGoroutine_sent _ _ _ _ _ _ h]
  · intro payload src
    constructor
    · intro err h
      rw [receivePing_datagram, h]
    · intro h
      rw [receivePing_datagram, h]

/-- C4, at an input: the write to 10.0.0.1 fails with "no route to host", and
on a second path it succeeds and the read times out. -/
theorem ping_sends_exactly_one_witness :
    pingOutcomes noExtensions [] "10.0.0.1" 5 7 none (some (.external "no route to host"))
        [] none (.timeout (.external "i/o timeout"))
      = .ok [.err (.wrap "error whilst sending echo message to 10.0.0.1"
          (.external "no route to host"))] ∧
    pingOutcomes noExtensions [] "10.0.0.1" 5 7 none none
        [] none (.timeout (.external "i/o timeout"))
      = .ok [.err (.wrap "couldn't set response deadline" (.external "i/o timeout"))] :=
  ⟨((ping_sends_exactly_one noExtensions [] "10.0.0.1" 5 7 none
      (some (.external "no route to host")) [] none (.timeout (.external "i/o timeout"))).2.1
      _ (by decide)).2.2,
   ((ping_sends_exactly_one noExtensions [] "10.0.0.1" 5 7 none none [] none
      (.timeout (.external "i/o timeout"))).2.2.1 (by decide)).2.2⟩

/-! ## The aggregator -/

/-- C5: the loop of `handleResults`, started with host list `hosts` and a
counter that covers the values drained, ends with `hosts` followed by the
strings among the values, in their order of arrival, and with the counter
lowered by one per value of either kind. -/
theorem handleResults_appends_strings (outs : List Outcome) (hosts : List String) (wg : Int)
    (h : (outs.length : Int) ≤ wg) :
    handleResults outs (hosts, wg) = .ok (hosts ++ successes outs, wg - outs.length) := by
  induction outs generalizing hosts wg with
  | nil => simp [handleResults, successes]
  | cons res rest ih =>
    simp only [List.length_cons, Nat.cast_add, Nat.cast_one] at h
    have hw : wgDone wg = .ok (wg - 1) := wgDone_ok wg (by omega)
    simp only [handleResults, hw]
    rw [ih (appendHost hosts res) (wg - 1) (by omega), appendHost_eq, List.append_assoc,
      ← successes_append]
    simp only [List.singleton_append, List.length_cons, Nat.cast_add, Nat.cast_one]
    congr 2
    ring

/-- C5, at an input: a string, an error and a second string arrive with the
counter at 3. -/
theorem handleResults_appends_strings_witness :
    handleResults [.str "10.0.0.2", .err (.external "i/o timeout"), .str "10.0.0.1"]
        (["10.0.0.7"], 3)
      = .ok (["10.0.0.7", "10.0.0.2", "10.0.0.1"], 0) :=
  handleResults_appends_strings
    [.str "10.0.0.2", .err (.external "i/o timeout"), .str "10.0.0.1"] ["10.0.0.7"] 3
    (by decide)

/-! ## Two registrations under one key -/

theorem pingGoroutine_pings (pings : Registry) (ip : String) (v1 v2 : Nat)
    (marshalErr writeErr : Option GoError) :
    (pingGoroutine pings ip v1 v2 marshalErr writeErr).pings = pings.put ip (newPing ip v1 v2) := by
  cases h : sendPing (newPing ip v1 v2) marshalErr writeErr with
  | none => rw [pingGoroutine_sent _ _ _ _ _ _ h]
  | some err => rw [pingGoroutine_fail _ _ _ _ _ _ err h]

/-- After two calls of `Ping` with the same address string the registry holds
the probe of the later call under that string, in a single entry, and every
other key reads as before the later call. For a datagram whose source address
has that string as its string form, bytes that carry the identifier and
sequence of the earlier probe fail validation whenever that pair differs from
the later probe's, and bytes that carry the later probe's pair pass. -/
theorem registry_overwrite_same_key (nonEcho : NonEchoParser) (pings reg1 reg2 : Registry)
    (ip : String) (a1 a2 b1 b2 : Nat) (me1 we1 me2 we2 : Option GoError)
    (h1 : reg1 = (pingGoroutine pings ip a1 a2 me1 we1).pings)
    (h2 : reg2 = (pingGoroutine reg1 ip b1 b2 me2 we2).pings) :
    reg2.get ip = newPing ip b1 b2 ∧
    reg2.filter (fun e => e.1 = ip) = [(ip, newPing ip b1 b2)] ∧
    (∀ k, k ≠ ip → reg2.get k = reg1.get k) ∧
    (∀ (src : IPAddr) (early late : List Byte), src.String = ip →
      echoReplyFields nonEcho early = some ((newPing ip a1 a2).id, (newPing ip a1 a2).seq) →
      echoReplyFields nonEcho late = some ((newPing ip b1 b2).id, (newPing ip b1 b2).seq) →
      (((newPing ip a1 a2).id, (newPing ip a1 a2).seq)
          ≠ ((newPing ip b1 b2).id, (newPing ip b1 b2).seq) →
        ∃ err, validateMessage nonEcho early (getPing reg2 src) = .ok (some err)) ∧
      validateMessage nonEcho late (getPing reg2 src) = .ok none) := by
  subst h1
  subst h2
  simp only [pingGoroutine_pings]
  refine ⟨Registry.get_put_same _ _ _, Registry.entries_put _ _ _,
    fun k hk => Registry.get_put_other _ _ _ _ hk, ?_⟩
  intro src early late hsrc he hl
  have hp : getPing ((pings.put ip (newPing ip a1 a2)).put ip (newPing ip b1 b2)) src
      = newPing ip b1 b2 := by
    unfold getPing
    rw [hsrc]
    exact Registry.get_put_same _ _ _
  rw [hp]
  refine ⟨fun hne => ?_, (validateMessage_ok_iff_fields nonEcho late _).mpr hl⟩
  obtain ⟨v, hv⟩ := validateMessage_total nonEcho early (newPing ip b1 b2)
  cases v with
  | some err => exact ⟨err, hv⟩
  | none =>
    exfalso
    rw [validateMessage_ok_iff_fields, he] at hv
    injection hv with hv
    exact hne hv

/-- C10 at the address string "::ffff:10.0.0.1" submitted twice, with the draws
(5, 7) and then (11, 13): the registry holds the later probe under that string,
the reply that carries the later probe's pair comes from 10.0.0.1, whose string
form is "10.0.0.1", `getPing` finds no entry and yields the zero probe, the
reply fails validation and `Wait` returns the empty list. With "10.0.0.1"
submitted twice the same reply passes. -/
theorem later_reply_rejected_mapped_target :
    registryMappedTwice.get "::ffff:10.0.0.1" = newPing "::ffff:10.0.0.1" 11 13 ∧
    (parseIP "::ffff:10.0.0.1").IP = IPv4 10 0 0 1 ∧
    (parseIP "::ffff:10.0.0.1").String = "10.0.0.1" ∧
    hostA.String = "10.0.0.1" ∧
    echoReplyFields noExtensions replyB
      = some ((newPing "::ffff:10.0.0.1" 11 13).id, (newPing "::ffff:10.0.0.1" 11 13).seq) ∧
    getPing registryMappedTwice hostA = zeroPing ∧
    validateMessage noExtensions replyB (getPing registryMappedTwice hostA)
      = .ok (some (.fresh "invalid response")) ∧
    receivePing noExtensions registryMappedTwice none (.datagram replyB hostA)
      = .ok [.err (.wrap "10.0.0.1" (.fresh "invalid response"))] ∧
    submittedAddrs mappedTwiceSweep = ["::ffff:10.0.0.1", "::ffff:10.0.0.1"] ∧
    (run noExtensions New mappedTwiceSweep).toOption.bind Wait = some [] ∧
    validateMessage noExtensions replyB (getPing registryTwice hostA) = .ok none := by
  refine ⟨by decide, by decide, by decide, by decide, by decide, by decide, rfl, rfl,
    by decide, by decide, rfl⟩

/-! ## The join barrier -/

/-- C6: along every sequence of steps of a session (calls of `Ping`, goroutines
sending their value, the aggregator receiving a value and releasing) nothing
panics, and every state reached satisfies the invariant of the session. The
aggregator has called `wg.Done()` once for each value, string or error, that it
is done with; the counter is the number of calls of `Ping` minus the number of
values it is done with; it is not negative; and it is zero exactly when that
number is the number of calls. The host list holds the strings of all values the
aggregator has received, the one it has not released yet included; so when the
counter is zero every value sent has arrived and been released, and `Wait`
returns a list in which every string sent on `pq.results` occurs. -/
theorem wait_group_counts_outstanding (nonEcho : NonEchoParser) (acts : List Action) :
    (∀ p, run nonEcho New acts ≠ .error (.panicked p)) ∧
    ∀ s, run nonEcho New acts = .ok s →
      SessionInv s ∧
      s.submitted = pingCalls acts ∧
      s.arrived.length = processed s + (if s.aggBusy then 1 else 0) ∧
      s.released = processed s ∧
      s.wg = (pingCalls acts : Int) - (processed s : Int) ∧
      0 ≤ s.wg ∧
      (s.wg = 0 ↔ processed s = pingCalls acts) ∧
      s.hosts = successes s.arrived ∧
      (s.wg = 0 →
        Wait s = some s.hosts ∧ s.results = [] ∧ s.aggBusy = false ∧
        s.arrived.length = pingCalls acts ∧ List.Perm s.sent s.arrived ∧
        ∀ r, Outcome.str r ∈ s.sent → r ∈ s.hosts) := by
  refine ⟨fun p => run_no_panic nonEcho acts New sessionInv_New p, ?_⟩
  intro s h
  have hinv := run_inv nonEcho acts New s sessionInv_New h
  obtain ⟨hc, hcalls, hstream, htaken, hhosts⟩ := hinv
  have hsub : s.submitted = pingCalls acts := by
    rw [run_submitted nonEcho acts New s h]
    simp [New]
  have hlen := hstream.length_eq
  rw [List.length_append] at hlen
  have hbusy : (if s.aggBusy then 1 else 0) ≤ 1 := by split <;> omega
  have hproc : processed s = s.released := by
    unfold processed
    omega
  refine ⟨⟨hc, hcalls, hstream, htaken, hhosts⟩, hsub, by omega, hproc.symm,
    by rw [hc, hsub, hproc], by omega, by omega, hhosts, ?_⟩
  intro hz
  have hres : s.results = [] := List.length_eq_zero.mp (by omega)
  have hidle : s.aggBusy = false := by
    cases hb : s.aggBusy with
    | false => rfl
    | true =>
      exfalso
      simp only [hb, if_true] at htaken
      omega
  have hperm : List.Perm s.sent s.arrived := by simpa [hres] using hstream
  refine ⟨by simp [Wait, hz], hres, hidle, ?_, hperm, ?_⟩
  · simp only [hidle, Bool.false_eq_true, if_false] at htaken
    omega
  · intro r hr
    rw [hhosts]
    simp only [successes, List.mem_filterMap]
    exact ⟨.str r, hperm.mem_iff.mp hr, rfl⟩

/-- C6, at an input: two calls of `Ping`, one answered and one timed out. Once
the aggregator is done with the error the counter is 1; at the end it is done
with both values, the counter is zero and `Wait` returns `["127.0.0.1"]`. -/
theorem wait_group_counts_outstanding_witness :
    (∃ s, run noExtensions New mixedSweepStart = .ok s ∧
      s.arrived = [.err (.wrap "couldn't set response deadline" (.external "i/o timeout"))] ∧
      processed s = 1 ∧ s.wg = 1 ∧ Wait s = none) ∧
    (∃ s, run noExtensions New mixedSweep = .ok s ∧ processed s = 2 ∧ s.wg = 0 ∧
      Wait s = some ["127.0.0.1"] ∧ "127.0.0.1" ∈ s.hosts) :=
  have h1 := (wait_group_counts_outstanding noExtensions mixedSweepStart).2 _ rfl
  have h2 := (wait_group_counts_outstanding noExtensions mixedSweep).2 _ rfl
  ⟨⟨_, rfl, rfl, rfl, by rw [h1.2.2.2.2.1]; rfl, rfl⟩,
   ⟨_, rfl, (h2.2.2.2.2.2.2.1.mp rfl).trans (by decide), rfl, (h2.2.2.2.2.2.2.2.2 rfl).1,
    (h2.2.2.2.2.2.2.2.2 rfl).2.2.2.2.2 "127.0.0.1" (by decide)⟩⟩

/-! ## The host list of a sweep -/

theorem successes_length_le (outs : List Outcome) : (successes outs).length ≤ outs.length :=
  List.length_filterMap_le _ _

/-- C7, as stated, fails: `Ping("10.0.0.1")` and `Ping("10.0.0.2")`, each
submitted once, and the reply of 10.0.0.1 delivered to both receives; `Wait`
returns 10.0.0.1 twice. -/
theorem duplicate_reply_listed_twice :
    submittedAddrs duplicateReplySweep = ["10.0.0.1", "10.0.0.2"] ∧
    (run noExtensions New duplicateReplySweep).toOption.bind Wait
      = some ["10.0.0.1", "10.0.0.1"] := by
  decide

/-- C7, amended: in every state a session reaches, and so in the list `Wait`
returns, the host list is no longer than the number of calls of `Ping`; an
address occurs in it at most as often as datagrams from that address were read
by the receives; so it has no address twice when those datagrams came from
pairwise different source addresses. -/
theorem hosts_bounded_by_calls (nonEcho : NonEchoParser) (acts : List Action) (s : Session)
    (hosts : List String) (h : run nonEcho New acts = .ok s) (hw : Wait s = some hosts) :
    hosts.length ≤ pingCalls acts ∧
    (∀ a, hosts.count a ≤ (deliveredSources acts).count a) ∧
    ((deliveredSources acts).Nodup → hosts.Nodup) := by
  have hh : hosts = s.hosts := by
    unfold Wait at hw
    split at hw
    · injection hw with hw
      exact hw.symm
    · cases hw
  subst hh
  obtain ⟨hc, hcalls, hstream, htaken, hhosts⟩ := run_inv nonEcho acts New s sessionInv_New h
  have hsub : s.submitted = pingCalls acts := by
    rw [run_submitted nonEcho acts New s h]
    simp [New]
  obtain ⟨ext, hext, hsubl⟩ := run_sent nonEcho acts New s h
  have hsent : s.sent = ext := by simpa [New] using hext
  have hperm : List.Perm (successes s.sent) (successes s.arrived ++ successes s.results) := by
    rw [← successes_append]
    exact hstream.filterMap _
  have hcount : ∀ a, s.hosts.count a ≤ (deliveredSources acts).count a := by
    intro a
    have h1 : (successes s.sent).count a ≤ (deliveredSources acts).count a := by
      rw [hsent]
      exact hsubl.count_le a
    have h2 := hperm.count_eq a
    rw [List.count_append] at h2
    rw [hhosts]
    omega
  refine ⟨?_, hcount, ?_⟩
  · have h1 := successes_length_le s.arrived
    have h2 := hstream.length_eq
    rw [List.length_append] at h2
    rw [hhosts]
    omega
  · intro hnd
    rw [List.nodup_iff_count_le_one] at hnd ⊢
    intro a
    exact (hcount a).trans (hnd a)

/-- C7 amended, at an input: Scenario A. -/
theorem hosts_bounded_by_calls_witness :
    ["127.0.0.1"].length ≤ pingCalls loopbackSweep ∧ ["127.0.0.1"].Nodup :=
  ⟨(hosts_bounded_by_calls noExtensions loopbackSweep _ ["127.0.0.1"] rfl rfl).1,
   (hosts_bounded_by_calls noExtensions loopbackSweep _ ["127.0.0.1"] rfl rfl).2.2 (by decide)⟩

/-! ## Replies that the receive path accepts -/

/-- When the string form of the target's address is the string that was passed
to `Ping`, a reply from that address with the probe's identifier and sequence,
checked against the registry as `Ping` left it, makes `receivePing` send that
string. -/
theorem receivePing_accepts_canonical (nonEcho : NonEchoParser) (pings : Registry)
    (ip : String) (v1 v2 : Nat) (marshalErr writeErr : Option GoError) (payload : List Byte)
    (hcanon : (parseIP ip).String = ip)
    (hreply : echoReplyFields nonEcho payload
      = some ((newPing ip v1 v2).id, (newPing ip v1 v2).seq)) :
    receivePing nonEcho (pingGoroutine pings ip v1 v2 marshalErr writeErr).pings none
        (.datagram payload (parseIP ip)) = .ok [.str ip] := by
  have hp : getPing (pingGoroutine pings ip v1 v2 marshalErr writeErr).pings (parseIP ip)
      = newPing ip v1 v2 := by
    rw [pingGoroutine_pings]
    unfold getPing
    rw [hcanon]
    exact Registry.get_put_same _ _ _
  have hv := (validateMessage_ok_iff_fields nonEcho
    (copyInto (List.replicate 512 0) payload) (newPing ip v1 v2)).mpr
    (echoReplyFields_copyInto nonEcho payload _ _ hreply)
  rw [receivePing_datagram, hp, hv, hcanon]


/-- C2 at the target "::ffff:127.0.0.1": the probe is sent to 127.0.0.1 and
registered under the string as given, the reply comes from the target's address
and carries the probe's identifier and sequence, the lookup uses "127.0.0.1",
and `receivePing` sends an error; `Wait` returns the empty list. -/
theorem mapped_target_reply_rejected :
    (parseIP "::ffff:127.0.0.1").IP = IPv4 127 0 0 1 ∧
    (parseIP "::ffff:127.0.0.1").String = "127.0.0.1" ∧
    echoReplyFields noExtensions loopbackReply
      = some ((newPing "::ffff:127.0.0.1" 1 1).id, (newPing "::ffff:127.0.0.1" 1 1).seq) ∧
    receivePing noExtensions (pingGoroutine [] "::ffff:127.0.0.1" 1 1 none none).pings none
        (.datagram loopbackReply (parseIP "::ffff:127.0.0.1"))
      = .ok [.err (.wrap "127.0.0.1" (.fresh "invalid response"))] ∧
    (run noExtensions New mappedSweep).toOption.bind Wait = some [] ∧
    (run noExtensions New loopbackSweep).toOption.bind Wait = some ["127.0.0.1"] := by
  refine ⟨by decide, by decide, by decide, rfl, by decide, by decide⟩

/-- C3 at a datagram from 10.0.0.9 while only 10.0.0.1 is registered: `getPing`
yields the zero probe, the echo reply with identifier 0 and sequence 0 passes
validation against it, `receivePing` sends the string "10.0.0.9", and `Wait`
returns it. -/
theorem unknown_source_zero_reply_accepted :
    getPing (pingGoroutine [] "10.0.0.1" 5 7 none none).pings stranger = zeroPing ∧
    echoReplyFields noExtensions zeroReply = some (0, 0) ∧
    receivePing noExtensions (pingGoroutine [] "10.0.0.1" 5 7 none none).pings none
        (.datagram zeroReply stranger) = .ok [.str "10.0.0.9"] ∧
    submittedAddrs strangerSweep = ["10.0.0.1"] ∧
    (run noExtensions New strangerSweep).toOption.bind Wait = some ["10.0.0.9"] := by
  refine ⟨by decide, by decide, rfl, by decide, by decide⟩

/-- Why the eight bytes matter: `readFrom` drops the byte count of `ReadFrom`
and returns the whole buffer. Given six bytes, an echo-reply header cut off
after the identifier `0x1234`, it would return them followed by 506 zero bytes,
which read as an echo reply with identifier `0x1234` and sequence 0. The socket
of `listen` does not return such a datagram. -/
theorem readFrom_pads_short_datagram :
    ¬ Receivable truncatedReply ∧
    ParseMessage noExtensions ProtocolICMP truncatedReply = .error errMessageTooShort ∧
    readFrom (.datagram truncatedReply hostA)
      = .ok (truncatedReply ++ List.replicate 506 0, hostA) ∧
    echoReplyFields noExtensions (truncatedReply ++ List.replicate 506 0)
      = some (0x1234, 0) := by
  refine ⟨by decide, rfl, rfl, rfl⟩

end Massping
